import Mathlib

/-!
Verification of the hatlib Argument Description & Execution Lifecycle Engine.

This file gives a shallow embedding of the core of the `hatlib` package:
  * `arg_info.py`   : `ArgInfo.__init__`, `integer_like`, the `ARG_TYPES` table;
  * `arg_value.py`  : `ArgValue.__init__`, `ArgValue.allocate`, `ArgValue.verify`,
                      `get_dimension_arg_indices`, `generate_arg_values`;
  * `function_info.py` : `FunctionInfo.__post_init__`, the output-dimension
                      cross-referencing of `preprocess`, and `postprocess`;
  * `callable_func.py` : `CallableFunc.__call__` and `CallableFunc.benchmark`.

Python values are modelled explicitly: machine-level ints are `Int`, Python
`str` is `String`, `Union[int, str]` fields are `IntOrStr`, numpy arrays are
`NDArray` records of dtype/shape/strides (contents are never inspected by the
verified code paths), and raising code is modelled with `Except String`.
-/

set_option maxRecDepth 4000

/-- Python `Union[int, str]` as used by `ArgInfo.shape`, `total_element_count`
and `total_byte_size`. -/
inductive IntOrStr where
  | int (n : Int)
  | str (s : String)
  deriving DecidableEq, Repr, Inhabited

/-- A ctypes type: either a scalar ctypes type for a named element type, or
`ctypes.POINTER` applied to another ctypes type. -/
inductive CTy where
  | base (name : String)
  | ptr (t : CTy)
  deriving DecidableEq, Repr, Inhabited

/-- `hat_file.ParameterType`. -/
inductive ParameterType where
  | AffineArray
  | RuntimeArray
  | Element
  | Void
  deriving DecidableEq, Repr, Inhabited

/-- `hat_file.UsageType`. -/
inductive UsageType where
  | Input
  | Output
  | InputOutput
  deriving DecidableEq, Repr, Inhabited

/-- `hat_file.Parameter` (the fields consumed by `ArgInfo.__init__`). -/
structure Parameter where
  name : String := ""
  logical_type : ParameterType := .Void
  declared_type : String := ""
  usage : UsageType := .Input
  shape : List Int := []
  affine_map : List Int := []
  size : String := ""
  deriving DecidableEq, Repr, Inhabited

/-- The `ARG_TYPES` table of `arg_info.py`: element type name to
(numpy dtype name, element byte size).  The byte size is the numpy itemsize,
with the `bfloat16` special case of `ArgInfo.__init__` (2 bytes) folded in. -/
def ARG_TYPES : List (String × String × Nat) :=
  [("int8_t", "int8", 1),
   ("int16_t", "int16", 2),
   ("int32_t", "int32", 4),
   ("int64_t", "int64", 8),
   ("uint8_t", "uint8", 1),
   ("uint16_t", "uint16", 2),
   ("uint32_t", "uint32", 4),
   ("uint64_t", "uint64", 8),
   ("float16_t", "float16", 2),
   ("bfloat16_t", "bfloat16", 2),
   ("float", "float32", 4),
   ("double", "float64", 8)]

/-- The digits of a nonempty all-digit character list, as a number. -/
def digitsVal (cs : List Char) : Option Nat :=
  if cs ≠ [] ∧ cs.all Char.isDigit then
    some (cs.foldl (fun a c => a * 10 + (c.toNat - 48)) 0)
  else
    none

/-- Python `int(s)` on a string: strips whitespace, allows one sign, then
requires a nonempty run of digits. -/
def pyParseInt (s : String) : Option Int :=
  let cs := ((s.data.dropWhile Char.isWhitespace).reverse.dropWhile
      Char.isWhitespace).reverse
  match cs with
  | '-' :: rest => (digitsVal rest).map (fun n => -(n : Int))
  | '+' :: rest => (digitsVal rest).map (fun n => (n : Int))
  | _ => (digitsVal cs).map (fun n => (n : Int))

/-- Python `int(x)` on an `int`-or-`str` value. -/
def pyIntOf : IntOrStr → Option Int
  | .int n => some n
  | .str s => pyParseInt s

/-- `arg_info.integer_like`: the value has an `int` conversion. -/
def integer_like (e : IntOrStr) : Bool :=
  (pyIntOf e).isSome

/-- Python truthiness of an `int`-or-`str` value. -/
def pyTruthy : IntOrStr → Bool
  | .int n => n ≠ 0
  | .str s => s ≠ ""

/-- First index in a list satisfying a predicate (Python `list.index` /
`str.find` semantics). -/
def firstIdxWhere {α : Type} (p : α → Bool) : List α → Option Nat
  | [] => none
  | x :: xs => if p x then some 0 else (firstIdxWhere p xs).map (fun i => i + 1)

/-- Split a character list at every occurrence of `c` (like `str.split`). -/
def splitOnChar (c : Char) : List Char → List (List Char)
  | [] => [[]]
  | a :: rest =>
    if a = c then [] :: splitOnChar c rest
    else
      match splitOnChar c rest with
      | [] => [[a]]
      | h :: t => (a :: h) :: t

/-- Drop a single leading space, if present. -/
def dropOneLeadSpace : List Char → List Char
  | ' ' :: r => r
  | l => l

/-- Drop a single trailing space, if present. -/
def dropOneTrailSpace (l : List Char) : List Char :=
  (dropOneLeadSpace l.reverse).reverse

/-- Adjust every piece after the first: pieces followed by another separator
lose one leading and one trailing space, the final piece loses one leading
space.  Together with `splitOnChar` this is exactly
`re.split(r"\s?\*\s?", s)`: each separator is a `*` with at most one space
consumed on each side. -/
def adjustPieces : List (List Char) → List (List Char)
  | [] => []
  | [last] => [dropOneLeadSpace last]
  | p :: rest => dropOneTrailSpace (dropOneLeadSpace p) :: adjustPieces rest

/-- `re.split(r"\s?\*\s?", s)` as used on runtime-array size strings in
`ArgInfo.__init__`. -/
def splitStar (s : String) : List String :=
  match splitOnChar '*' s.data with
  | [] => []
  | [p] => [⟨p⟩]
  | p :: rest => ⟨dropOneTrailSpace p⟩ :: (adjustPieces rest).map (fun cs => ⟨cs⟩)

/-- `ArgInfo._get_pointer_level`: position of the first `*` in the declared
type, then the number of `*` from there on. -/
def pointerLevelOf (s : String) : Nat :=
  match firstIdxWhere (fun c => c = '*') s.data with
  | none => 0
  | some p => ((s.data.drop p).filter (fun c => c = '*')).length

/-- `declared_type[:-pointer_level]` (the whole string when the level is 0). -/
def elementTypeOf (s : String) (lvl : Nat) : String :=
  if lvl = 0 then s else ⟨s.data.take (s.data.length - lvl)⟩

/-- Python `max(l)` (`ValueError` on an empty list becomes `none`). -/
def pyMax : List Int → Option Int
  | [] => none
  | x :: xs => some (xs.foldl max x)

/-- Python `l.index(v)`: first index holding `v`. -/
def pyIndexOf (l : List Int) (v : Int) : Option Nat :=
  firstIdxWhere (fun x => x = v) l

/-- `l.index(max(l))`, the major-dimension computation of `ArgInfo.__init__`. -/
def pyMaxIdx (l : List Int) : Option Nat :=
  (pyMax l).bind (pyIndexOf l)

/-- `arg_info.ArgInfo`: the parameter descriptor.  `numpy_strides` and
`element_strides` are `Option`s because `ArgInfo.__init__` never assigns them
in the `RuntimeArray` branch (Python `hasattr` is false there). -/
structure ArgInfo where
  name : String
  hat_declared_type : String
  shape : List IntOrStr
  numpy_strides : Option (List Int)
  numpy_dtype : String
  element_num_bytes : Nat
  element_strides : Option (List Int)
  total_element_count : IntOrStr
  total_byte_size : IntOrStr
  ctypes_type : CTy
  pointer_level : Nat
  usage : UsageType
  deriving DecidableEq, Repr, Inhabited

/-- `ArgInfo.is_constant_shaped`. -/
def ArgInfo.is_constant_shaped (a : ArgInfo) : Bool :=
  a.shape.all integer_like

/-- `ArgInfo.__init__`: builds the descriptor from one parameter record.
Raising `NotImplementedError` / `ValueError` / `IndexError` is modelled by
`Except.error`. -/
def mkArgInfo (p : Parameter) : Except String ArgInfo :=
  let pl := pointerLevelOf p.declared_type
  let et := elementTypeOf p.declared_type pl
  match ARG_TYPES.find? (fun e => e.1 = et) with
  | none => .error ("Unsupported element_type " ++ et ++ " in hat file")
  | some (_, dt, sz) =>
    match p.logical_type with
    | .AffineArray =>
      if p.shape ≠ [] then
        let es := p.affine_map
        let ns := es.map (fun x => (sz : Int) * x)
        match pyMaxIdx es with
        | none => .error "ValueError: max() arg is an empty sequence"
        | some m =>
          match p.shape.get? m with
          | none => .error "IndexError: tuple index out of range"
          | some sm =>
            let tec : Int := sm * es.getD m 0
            .ok { name := p.name, hat_declared_type := p.declared_type,
                  shape := p.shape.map .int, numpy_strides := some ns,
                  numpy_dtype := dt, element_num_bytes := sz,
                  element_strides := some es, total_element_count := .int tec,
                  total_byte_size := .int ((sz : Int) * tec),
                  ctypes_type := .ptr (.base et), pointer_level := pl,
                  usage := p.usage }
      else
        .ok { name := p.name, hat_declared_type := p.declared_type,
              shape := [.int 1], numpy_strides := some [(sz : Int)],
              numpy_dtype := dt, element_num_bytes := sz,
              element_strides := some [(sz : Int)],
              total_element_count := .int 1,
              total_byte_size := .int (sz : Int),
              ctypes_type := .ptr (.base et), pointer_level := pl,
              usage := p.usage }
    | .RuntimeArray =>
      .ok { name := p.name, hat_declared_type := p.declared_type,
            shape := (splitStar p.size).map .str, numpy_strides := none,
            numpy_dtype := dt, element_num_bytes := sz,
            element_strides := none, total_element_count := .str p.size,
            total_byte_size := .str (toString sz ++ " * " ++ p.size),
            ctypes_type := .ptr (.base et), pointer_level := pl,
            usage := p.usage }
    | .Element =>
      let ct : CTy :=
        if p.usage = .Input ∨ (et = "int64_t" ∧ p.usage = .InputOutput) then
          .base et
        else
          .ptr (.base et)
      .ok { name := p.name, hat_declared_type := p.declared_type,
            shape := [.int 1], numpy_strides := some [(sz : Int)],
            numpy_dtype := dt, element_num_bytes := sz,
            element_strides := some [(sz : Int)],
            total_element_count := .int 1, total_byte_size := .int (sz : Int),
            ctypes_type := ct, pointer_level := pl,
            usage := p.usage }
    | .Void => .error "Unknown logical type in hat file"

/-- A numpy ndarray as far as the verified code paths inspect it: dtype name,
shape and byte strides.  Element contents are never read by `ArgValue.verify`
or the layout computations, so they are not modelled. -/
structure NDArray where
  dtype : String
  shape : List Int
  strides : List Int
  deriving DecidableEq, Repr, Inhabited

/-- `ndarray.size`: the product of the dimensions. -/
def NDArray.size (a : NDArray) : Int :=
  a.shape.prod

/-- Itemsizes of the numpy dtypes appearing in `ARG_TYPES`. -/
def DTYPE_SIZES : List (String × Nat) :=
  [("int8", 1), ("int16", 2), ("int32", 4), ("int64", 8),
   ("uint8", 1), ("uint16", 2), ("uint32", 4), ("uint64", 8),
   ("float16", 2), ("bfloat16", 2), ("float32", 4), ("float64", 8)]

/-- Itemsize of a dtype name. -/
def itemsizeOf (dt : String) : Nat :=
  ((DTYPE_SIZES.find? (fun e => e.1 = dt)).map (fun e => e.2)).getD 0

/-- The numpy dtypes that are subclasses of `np.integer`. -/
def isIntDtype (dt : String) : Bool :=
  dt ∈ ["int8", "int16", "int32", "int64", "uint8", "uint16", "uint32", "uint64"]

/-- The C-contiguous (row-major) byte strides numpy gives a freshly created
array: `strides[i] = itemsize * prod(shape[i+1:])`. -/
def cStrides (itemsize : Nat) : List Int → List Int
  | [] => []
  | _ :: rest => ((itemsize : Nat) * rest.prod : Int) :: cStrides itemsize rest

/-- A Python value held by an `ArgValue`: a numpy array, a numpy scalar, a
ctypes pointer instance (pointer level 2), or a raw Python `int` as supplied
by a caller before `ArgValue.__init__` converts it. -/
inductive PyValue where
  | ndarray (a : NDArray)
  | scalar (dtype : String) (v : Int)
  | ptrHandle
  | pyInt (n : Int)
  deriving DecidableEq, Repr, Inhabited

/-- `arg_value.ArgValue`: a concrete value bound to a descriptor.
`dim_values` holds the indices (into the generated value list) of the
cross-referenced dimension `ArgValue`s of an output runtime array; the index
models the Python object reference. -/
structure ArgValue where
  arg_info : ArgInfo
  value : PyValue
  dim_values : Option (List Nat) := none
  deriving DecidableEq, Repr, Inhabited

/-- The shape as numpy index machinery sees it: only honest `int` entries
are accepted (a string entry raises a `TypeError` inside numpy). -/
def strictIntShape? (l : List IntOrStr) : Option (List Int) :=
  l.mapM (fun e => match e with
    | IntOrStr.int d => some d
    | IntOrStr.str _ => none)

/-- `ArgValue.allocate` for a pointer: level 1 builds
`np.lib.stride_tricks.as_strided(np.random.rand(total_element_count), shape,
strides)` (failing like numpy does when the count or the shape is still
symbolic or negative), level 2 builds a fresh ctypes pointer instance. -/
def allocateValue (info : ArgInfo) : Except String PyValue :=
  if info.pointer_level = 1 then
    match info.total_element_count with
    | .str _ => .error "TypeError: np.random.rand expects an integer count"
    | .int n =>
      if 0 ≤ n then
        match strictIntShape? info.shape, info.numpy_strides with
        | some sh, some ns =>
          if sh.all (fun d => 0 ≤ d) then
            .ok (.ndarray { dtype := info.numpy_dtype, shape := sh, strides := ns })
          else
            .error "ValueError: negative dimensions are not allowed"
        | _, _ => .error "TypeError: as_strided with symbolic shape or strides"
      else
        .error "ValueError: negative dimensions are not allowed"
  else if info.pointer_level = 2 then
    .ok .ptrHandle
  else
    .error "allocate: nothing to do"

/-- `ArgValue.__init__`: rejects pointer levels above 2, requires a value for
non-pointers, allocates when no value is supplied, and converts raw Python
ints/floats to numpy scalars of the descriptor dtype. -/
def mkArgValue (info : ArgInfo) (v : Option PyValue) : Except String ArgValue :=
  if info.pointer_level > 2 then
    .error "Pointer levels > 2 are not supported"
  else
    match v with
    | none =>
      if info.pointer_level = 0 then
        .error "A value is required for non-pointers"
      else
        (allocateValue info).map (fun pv => { arg_info := info, value := pv })
    | some (.pyInt n) => .ok { arg_info := info, value := .scalar info.numpy_dtype n }
    | some pv => .ok { arg_info := info, value := pv }

/-- `tuple(map(int, shape))` on a descriptor shape. -/
def intShapeAll? (l : List IntOrStr) : Option (List Int) :=
  l.mapM pyIntOf

/-- `ArgValue.verify`: checks a held value against a descriptor, raising
`ValueError` (modelled by `Except.error`) on a mismatch.  Mirrors
`arg_value.py` lines 61-99. -/
def pyVerify (v : PyValue) (desc : ArgInfo) : Except String Unit :=
  if desc.pointer_level = 1 then
    match v with
    | .ndarray a =>
      if desc.numpy_dtype ≠ a.dtype then
        .error "expected argument to have the declared dtype"
      else if desc.is_constant_shaped then
        if a.size > 1 then
          match intShapeAll? desc.shape with
          | none => .error "ValueError: invalid literal for int()"
          | some ds =>
            if ds ≠ a.shape then
              .error "expected argument to have the declared shape"
            else
              let dns := match desc.numpy_strides with
                | some st => st
                | none => (ds.drop 1 ++ [1]).map (fun x => x * (desc.element_num_bytes : Int))
              if dns ≠ a.strides then
                .error "expected argument to have the declared strides"
              else
                .ok ()
        else
          match pyIntOf desc.total_element_count with
          | none => .error "ValueError: invalid literal for int()"
          | some n =>
            if a.size ≠ n then
              .error "expected argument to have the declared size"
            else
              .ok ()
      else
        .ok ()
    | _ => .error "expected argument to be numpy.ndarray"
  else
    .ok ()

/-- First index of an argument with the given name. -/
def findIdxByName (args : List ArgInfo) (n : String) : Option Nat :=
  firstIdxWhere (fun a => a.name = n) args

/-- Inner loop of `get_dimension_arg_indices`: resolve each dimension symbol
to the first argument with that name, raising when none matches. -/
def dimIndicesGo (all : List ArgInfo) : List IntOrStr → Except String (List Nat)
  | [] => .ok []
  | s :: rest =>
    match s with
    | .int _ => .error "is not an argument to the function"
    | .str t =>
      match findIdxByName all t with
      | none => .error (t ++ " is not an argument to the function")
      | some i => (dimIndicesGo all rest).map (fun is => i :: is)

/-- `arg_value.get_dimension_arg_indices`: the dimension-argument indices, in
shape order, for an array argument. -/
def get_dimension_arg_indices (array_arg : ArgInfo) (all_arguments : List ArgInfo) :
    Except String (List Nat) :=
  dimIndicesGo all_arguments
    (array_arg.shape.filter (fun x => pyTruthy x && ! integer_like x))

/-- `_gen_random_data(dtype, shape)`: a freshly created (C-contiguous) array
of the given dtype and shape. -/
def gen_random_data (dtype : String) (shape : List Int) : Except String NDArray :=
  if shape.all (fun d => 0 ≤ d) then
    .ok { dtype := dtype, shape := shape, strides := cStrides (itemsizeOf dtype) shape }
  else
    .error "ValueError: negative dimensions are not allowed"

/-- The transient name-to-`ArgValue` dimension map of `generate_arg_values`. -/
abbrev DimMap := List (String × ArgValue)

/-- Lookup in the dimension map. -/
def dimLookup (m : DimMap) (n : String) : Option ArgValue :=
  (m.find? (fun e => e.1 = n)).map (fun e => e.2)

/-- `random.choice([2, 3, 4])` driven by an explicit oracle `g`. -/
def pickDim (g : Nat → Nat) (k : Nat) : Int :=
  (([2, 3, 4].getD (g k % 3) 2 : Nat) : Int)

/-- The shape-building loop of `generate_arg_values` for an input runtime
array: literal entries are converted with `int`, symbolic entries are either
freshly generated (and recorded in the dimension map as a scalar `ArgValue`)
or reused from the map (`v` for integer numpy scalars, `v[0]` — a `TypeError`
— otherwise). -/
def buildShapeGo (dimArgs : List (String × ArgInfo)) (g : Nat → Nat) :
    List IntOrStr → DimMap → Nat → Except String (List Int × DimMap × Nat)
  | [], dims, k => .ok ([], dims, k)
  | d :: rest, dims, k =>
    if integer_like d then
      match pyIntOf d with
      | some n =>
        (buildShapeGo dimArgs g rest dims k).map
          (fun r => (n :: r.1, r.2.1, r.2.2))
      | none => .error "unreachable: integer_like entry without int()"
    else
      match d with
      | .int _ => .error "AssertionError"
      | .str t =>
        match dimArgs.find? (fun e => e.1 = t) with
        | none => .error "AssertionError"
        | some da =>
          match dimLookup dims t with
          | none =>
            let n := pickDim g k
            match mkArgValue da.2 (some (.pyInt n)) with
            | .error e => .error e
            | .ok av =>
              (buildShapeGo dimArgs g rest ((t, av) :: dims) (k + 1)).map
                (fun r => (n :: r.1, r.2.1, r.2.2))
          | some av =>
            match av.value with
            | .scalar dt n =>
              if isIntDtype dt then
                (buildShapeGo dimArgs g rest dims k).map
                  (fun r => (n :: r.1, r.2.1, r.2.2))
              else
                .error "TypeError: scalar object is not subscriptable"
            | _ => .error "TypeError: unexpected stored dimension value"

/-- The in-place specialization of a constant-shaped descriptor performed by
`generate_arg_values` (lines 203-207): `total_element_count` and `shape` are
converted with `int`, and `numpy_strides` is assigned the row-of-trailing
dimension formula when it was never set. -/
def specializeConst (a : ArgInfo) : Except String ArgInfo :=
  match pyIntOf a.total_element_count with
  | none => .error "ValueError: invalid literal for int()"
  | some n =>
    match intShapeAll? a.shape with
    | none => .error "ValueError: invalid literal for int()"
    | some sh =>
      .ok { a with
            total_element_count := .int n,
            shape := sh.map .int,
            numpy_strides := some (match a.numpy_strides with
              | some st => st
              | none => (sh.drop 1 ++ [1]).map (fun x => x * (a.element_num_bytes : Int))) }

/-- One iteration of the main loop of `generate_arg_values`, for one
argument: input runtime arrays, reused dimension elements, and the
constant-shaped / output fallback.  Returns the (possibly specialized)
descriptor paired with the produced `ArgValue`, plus the updated dimension
map and oracle counter. -/
def genOne (allArgs : List ArgInfo) (g : Nat → Nat) (a : ArgInfo)
    (dims : DimMap) (k : Nat) :
    Except String ((ArgInfo × ArgValue) × DimMap × Nat) :=
  if a.usage ≠ .Output ∧ ¬ a.is_constant_shaped then
    match get_dimension_arg_indices a allArgs with
    | .error e => .error e
    | .ok idxs =>
      let dimArgs : List (String × ArgInfo) :=
        idxs.map (fun i => ((allArgs.getD i default).name, allArgs.getD i default))
      match (if a.shape = [.str ""] then .ok ([1], dims, k)
             else buildShapeGo dimArgs g a.shape dims k) with
      | .error e => .error e
      | .ok (sh, dims', k') =>
        match gen_random_data a.numpy_dtype sh with
        | .error e => .error e
        | .ok arr =>
          match mkArgValue a (some (.ndarray arr)) with
          | .error e => .error e
          | .ok av => .ok ((a, av), dims', k')
  else
    match dimLookup dims a.name with
    | some av => .ok ((a, av), dims, k)
    | none =>
      match (if a.is_constant_shaped then specializeConst a else .ok a) with
      | .error e => .error e
      | .ok a' =>
        if a.usage ≠ .Output then
          match strictIntShape? a'.shape with
          | none => .error "TypeError: non-integer shape"
          | some sh =>
            match gen_random_data a'.numpy_dtype sh with
            | .error e => .error e
            | .ok arr =>
              match mkArgValue a' (some (.ndarray arr)) with
              | .error e => .error e
              | .ok av => .ok ((a', av), dims, k)
        else
          match mkArgValue a' none with
          | .error e => .error e
          | .ok av => .ok ((a', av), dims, k)

/-- The main loop of `generate_arg_values` over the whole argument list. -/
def genAll (allArgs : List ArgInfo) (g : Nat → Nat) :
    List ArgInfo → DimMap → Nat →
    Except String (List (ArgInfo × ArgValue) × DimMap × Nat)
  | [], dims, k => .ok ([], dims, k)
  | a :: rest, dims, k =>
    match genOne allArgs g a dims k with
    | .error e => .error e
    | .ok (pr, dims', k') =>
      match genAll allArgs g rest dims' k' with
      | .error e => .error e
      | .ok (prs, dims'', k'') => .ok (pr :: prs, dims'', k'')

/-- The final loop of `generate_arg_values`: record the dimension-value
cross-references on every output runtime array value. -/
def wireOutputDims (allArgs : List ArgInfo) :
    List (ArgInfo × ArgValue) → Except String (List (ArgInfo × ArgValue))
  | [] => .ok []
  | pr :: rest =>
    match (if pr.2.arg_info.usage = .Output ∧ ¬ pr.2.arg_info.is_constant_shaped then
            (get_dimension_arg_indices pr.2.arg_info allArgs).map
              (fun idxs => (pr.1, { pr.2 with dim_values := some idxs }))
          else .ok pr) with
    | .error e => .error e
    | .ok pr2 =>
      match wireOutputDims allArgs rest with
      | .error e => .error e
      | .ok rest2 => .ok (pr2 :: rest2)

/-- `arg_value.generate_arg_values`: generate argument values from argument
descriptions.  The returned descriptor in each pair is the argument's
descriptor object after the in-place specialization the generator performs,
which is what a later `FunctionInfo.verify` reads. -/
def generate_arg_values (arguments : List ArgInfo) (g : Nat → Nat) :
    Except String (List (ArgInfo × ArgValue)) :=
  match genAll arguments g arguments [] 0 with
  | .error e => .error e
  | .ok (pairs, _, _) => wireOutputDims arguments pairs

/-- `hat_file.Function` (the fields consumed by `FunctionInfo`). -/
structure HatFunction where
  name : String := ""
  arguments : List Parameter := []
  deriving DecidableEq, Repr, Inhabited

/-- `function_info.FunctionInfo` after `__post_init__`. -/
structure FunctionInfo where
  desc : HatFunction
  arguments : List ArgInfo
  name : String
  deriving DecidableEq, Repr, Inhabited

/-- `FunctionInfo.__post_init__`: builds one `ArgInfo` per declared parameter
(and nothing else — in particular it performs no dimension-symbol
resolution). -/
def mkFunctionInfo (f : HatFunction) : Except String FunctionInfo :=
  (f.arguments.mapM mkArgInfo).map
    (fun infos => { desc := f, arguments := infos, name := f.name })

/-- One entry of an output runtime array's `dim_values` list as built by
`FunctionInfo.preprocess`: either a constant dimension, or a reference (by
argument index, modelling the Python object reference) to the dimension
`ArgValue` whose scalar contents the callee will write. -/
inductive DimRef where
  | const (n : Int)
  | ref (idx : Nat)
  deriving DecidableEq, Repr, Inhabited

/-- The name-to-index map of `FunctionInfo.preprocess`
(`{info.name: i for i, info in enumerate(self.arguments)}` — a Python dict,
so the last occurrence of a duplicated name wins). -/
def namesToIndicesLookup (args : List ArgInfo) (n : String) : Option Nat :=
  match firstIdxWhere (fun a => a.name = n) args.reverse with
  | none => none
  | some j => some (args.length - 1 - j)

/-- The dimension loop of `FunctionInfo.preprocess` for an *output* runtime
array (lines 76-105 with `usage == Output`): constant dimensions are appended
as ints, symbolic dimensions are resolved through the name map (a missing
name is a `KeyError`), must denote `Element` parameters declared `Output`
(asserts), and are appended as cross-references. -/
def outputDimRefsGo (fi : FunctionInfo) : List IntOrStr → Except String (List DimRef)
  | [] => .ok []
  | d :: rest =>
    if integer_like d then
      match pyIntOf d with
      | some n => (outputDimRefsGo fi rest).map (fun rs => .const n :: rs)
      | none => .error "unreachable: integer_like entry without int()"
    else
      match d with
      | .int _ => .error "KeyError"
      | .str t =>
        match namesToIndicesLookup fi.arguments t with
        | none => .error ("KeyError: " ++ t)
        | some j =>
          match fi.desc.arguments.get? j with
          | none => .error "IndexError"
          | some dh =>
            if dh.logical_type = .Element then
              if dh.usage = .Output then
                (outputDimRefsGo fi rest).map (fun rs => .ref j :: rs)
              else
                .error "AssertionError: dimension of an output array must be an Output Element"
            else
              .error "AssertionError: dimension argument must be an Element"

/-- `FunctionInfo.preprocess` restricted to the output-runtime-array argument
at index `i`: the `dim_values` cross-reference list recorded on that
argument's `ArgValue` (lines 50-61 and 76-105).  The `['']` shape is first
normalized to rank 0 exactly as the source does. -/
def buildOutputDimRefs (fi : FunctionInfo) (i : Nat) : Except String (List DimRef) :=
  match fi.arguments.get? i, fi.desc.arguments.get? i with
  | some info, some hat =>
    if hat.logical_type = .RuntimeArray ∧ hat.usage = .Output then
      let shp := if info.shape.head? = some (.str "") then [] else info.shape
      outputDimRefsGo fi shp
    else
      .error "not an output runtime array"
  | _, _ => .error "IndexError"

/-- `FunctionInfo.postprocess` for one output runtime array: the shape the
caller is handed is read entry-wise from the recorded `dim_values` — a
constant stays itself, a cross-reference reads the dimension `ArgValue`'s
current scalar contents (`d.value[0]`), modelled by the post-call store. -/
def postprocessOutputShape (store : Nat → Int) (refs : List DimRef) : List Int :=
  refs.map (fun d => match d with | .const n => n | .ref j => store j)

/-- The five phases of the `CallableFunc` execution lifecycle. -/
inductive LPhase where
  | init_runtime
  | init_batch
  | run_batch
  | cleanup_batch
  | cleanup_runtime
  deriving DecidableEq, Repr, Inhabited

/-- The sequence of phases `CallableFunc.__call__` invokes, as a function of
which phases raise (`fails p = true` means phase `p` raises).  This mirrors
the nested `try`/`finally` structure of `callable_func.py` lines 7-18: the
inner `finally` always runs `cleanup_batch` once `init_batch` was entered,
and the outer `finally` always runs `cleanup_runtime` once `init_runtime`
was entered.  A failing cleanup phase still appears in the trace (its
exception propagates afterwards). -/
def callTrace (fails : LPhase → Bool) : List LPhase :=
  .init_runtime ::
    (if fails .init_runtime then [.cleanup_runtime]
     else .init_batch ::
       (if fails .init_batch then [.cleanup_batch, .cleanup_runtime]
        else [.run_batch, .cleanup_batch, .cleanup_runtime]))

/-- The batching loop of `CallableFunc.benchmark` (lines 27-37): run a batch,
append its elapsed time, add `iters` to the iteration count, and stop as soon
as the accumulated time reaches the minimum time *and* the batch count
reaches the minimum batch count.  `timings j` is the elapsed time reported
by the `j`-th `run_batch`; `fuel` bounds the unrolling (the Python loop has
no bound and simply may not terminate when the timings sum stays below the
minimum). -/
def benchLoop (timings : Nat → ℚ) (iters batch_size : Nat) (min_time_ms : ℚ) :
    Nat → Nat → List ℚ → Nat → Option (List ℚ × Nat)
  | 0, _, _, _ => none
  | fuel + 1, j, acc, itns =>
    let acc' := acc ++ [timings j]
    let itns' := itns + iters
    if acc'.sum ≥ min_time_ms ∧ acc'.length ≥ batch_size then
      some (acc', itns')
    else
      benchLoop timings iters batch_size min_time_ms fuel (j + 1) acc' itns'

/-- `CallableFunc.benchmark` (lines 20-43), reduced to its timing arithmetic:
the loop above followed by `mean = sum(batch_timings_ms) / iterations`.
Returns the mean elapsed time and the per-batch timings. -/
def benchmark (timings : Nat → ℚ) (iters batch_size : Nat)
    (min_time_in_sec : ℚ) (fuel : Nat) : Option (ℚ × List ℚ) :=
  match benchLoop timings iters batch_size (min_time_in_sec * 1000) fuel 0 [] 0 with
  | none => none
  | some (ts, itns) => some (ts.sum / (itns : ℚ), ts)

deriving instance DecidableEq for Except

/-- The construction did not raise. -/
def exceptOk {α : Type} : Except String α → Bool
  | .ok _ => true
  | .error _ => false

/-- The ctypes type is a pointer type (as opposed to a by-value scalar). -/
def CTy.isPtr : CTy → Bool
  | .ptr _ => true
  | .base _ => false

/-- Resolution of one shape entry at call time: literal entries are their own
value, symbolic entries are looked up in the call-time environment. -/
def resolveEntry (env : String → Option Int) : IntOrStr → Option Int
  | .int n => some n
  | .str s =>
    match pyParseInt s with
    | some n => some n
    | none => env s

/-- Resolution of a whole descriptor shape at call time. -/
def resolveShape (env : String → Option Int) (shape : List IntOrStr) : Option (List Int) :=
  shape.mapM (resolveEntry env)

/-- Evaluate a size-expression string (a `*`-separated product of integer
literals and dimension symbols, as carried by `total_element_count` and
`total_byte_size` of a runtime array) under a call-time environment. -/
def evalSizeExpr (env : String → Option Int) (s : String) : Option Int :=
  ((splitStar s).mapM (fun t => resolveEntry env (.str t))).map (fun l => l.prod)

/-- `ArgValue.verify` as the specification sentence describes it (claim C6):
pointer-depth-1 values must be ndarrays of the declared dtype; shape and
byte-stride equality is checked whenever the descriptor shape is fully
constant; for fully-dynamic shapes whose value has a single element the
resolved total element count is checked instead; everything else passes. -/
def verifyClaimedC6 (v : PyValue) (desc : ArgInfo) : Bool :=
  if desc.pointer_level = 1 then
    match v with
    | .ndarray a =>
      if desc.numpy_dtype ≠ a.dtype then
        false
      else if desc.is_constant_shaped then
        match intShapeAll? desc.shape with
        | none => false
        | some ds =>
          ds = a.shape
            ∧ (match desc.numpy_strides with
               | some st => st
               | none => (ds.drop 1 ++ [1]).map
                   (fun x => x * (desc.element_num_bytes : Int))) = a.strides
      else if a.size = 1 then
        match pyIntOf desc.total_element_count with
        | none => false
        | some n => a.size = n
      else
        true
    | _ => false
  else
    true

/-- A fixed oracle for the dimension generator. -/
def g0 : Nat → Nat := fun _ => 0

/-- Concrete scenario 1 of the specification: shape `(2,2)`,
affine map `(2,1)`, float32. -/
def pScenario1 : Parameter :=
  { name := "A", logical_type := .AffineArray, declared_type := "float*",
    usage := .Input, shape := [2, 2], affine_map := [2, 1] }

def infoScenario1 : ArgInfo :=
  ((mkArgInfo pScenario1).toOption).getD default

/-- A parameter record with pointer depth 3 and a supported element type. -/
def pDepth3 : Parameter :=
  { name := "X", logical_type := .AffineArray, declared_type := "int32_t***",
    usage := .Input, shape := [2], affine_map := [1] }

def infoDepth3 : ArgInfo :=
  ((mkArgInfo pDepth3).toOption).getD default

/-- An `InputOutput` `int64_t` element parameter. -/
def pIOInt64 : Parameter :=
  { name := "n", logical_type := .Element, declared_type := "int64_t", usage := .InputOutput }

/-- An `InputOutput` `float` element parameter. -/
def pIOFloat : Parameter :=
  { name := "x", logical_type := .Element, declared_type := "float", usage := .InputOutput }

def infoIOInt64 : ArgInfo := ((mkArgInfo pIOInt64).toOption).getD default

def infoIOFloat : ArgInfo := ((mkArgInfo pIOFloat).toOption).getD default

/-- A failure pattern where only `run_batch` raises. -/
def failsRunBatch : LPhase → Bool := fun p =>
  match p with
  | .run_batch => true
  | _ => false

/-- The byte strides `ArgValue.verify` compares against: the stored
`numpy_strides` when the descriptor has them, else the
`shape[1:] + (1,)` formula of `arg_value.py` lines 82-84 (which is also the
formula `generate_arg_values` assigns at line 207). -/
def effNumpyStrides (desc : ArgInfo) : List Int :=
  match desc.numpy_strides with
  | some st => st
  | none =>
    ((((intShapeAll? desc.shape).getD []).drop 1) ++ [1]).map
      (fun x => x * (desc.element_num_bytes : Int))

/-- Every generated value passes verification against its descriptor. -/
def verifyAllOk (pairs : List (ArgInfo × ArgValue)) : Bool :=
  pairs.all (fun pr => pyVerify pr.2.value pr.1 = .ok ())

/-- The dimension parameter (first match by name) denoted by a shape entry,
if any, is a by-value scalar. -/
def dimPointerLevelOk (args : List ArgInfo) (e : IntOrStr) : Bool :=
  match e with
  | IntOrStr.int _ => true
  | IntOrStr.str t =>
    match findIdxByName args t with
    | none => true
    | some j =>
      match args.get? j with
      | none => true
      | some b => b.pointer_level = 0

/-- Hypotheses under which the generate-then-verify round trip succeeds:
pairwise-distinct parameter names; every constant-shaped descriptor's total
element count is the product of its shape; every constant-shaped non-output
descriptor's byte strides are the C-contiguous strides of its shape (the
layout of the data `generate_arg_values` synthesizes); dtype itemsizes agree
with the element byte size (true of every table-built descriptor); and every
dimension parameter referenced by an input runtime array is a by-value
scalar (pointer level 0). -/
def goodRoundTripArgs (args : List ArgInfo) : Prop :=
  (args.map ArgInfo.name).Nodup
  ∧ (∀ a ∈ args, a.is_constant_shaped = true →
      pyIntOf a.total_element_count = some (((intShapeAll? a.shape).getD []).prod))
  ∧ (∀ a ∈ args, a.is_constant_shaped = true → a.usage ≠ .Output →
      effNumpyStrides a = cStrides a.element_num_bytes ((intShapeAll? a.shape).getD []))
  ∧ (∀ a ∈ args, itemsizeOf a.numpy_dtype = a.element_num_bytes)
  ∧ (∀ a ∈ args, a.is_constant_shaped = false → a.usage ≠ .Output →
      ∀ e ∈ a.shape, dimPointerLevelOk args e = true)

/-- Invariant on the transient dimension map: every recorded dimension name
denotes (through first-match name lookup) a by-value scalar parameter. -/
def InvDims (args : List ArgInfo) (dims : DimMap) : Prop :=
  ∀ e ∈ dims, ∀ j, findIdxByName args e.1 = some j →
    ∀ b, args.get? j = some b → b.pointer_level = 0

/-- A descriptor with a padded (non-contiguous) affine map: shape `(2,2)`,
affine map `(4,1)`, float32. -/
def pPadded : Parameter :=
  { name := "A", logical_type := .AffineArray, declared_type := "float*",
    usage := .Input, shape := [2, 2], affine_map := [4, 1] }

def argsPadded : List ArgInfo :=
  match mkArgInfo pPadded with
  | .ok i => [i]
  | .error _ => []

/-- Contiguous affine-array input parameter (for the round-trip witness). -/
def pContig : Parameter :=
  { name := "A", logical_type := .AffineArray, declared_type := "float*",
    usage := .Input, shape := [2, 2], affine_map := [2, 1] }

/-- By-value input dimension element (for the round-trip witness). -/
def pDimN : Parameter :=
  { name := "N", logical_type := .Element, declared_type := "int64_t", usage := .Input }

/-- Input runtime array sized by the `N` element (for the round-trip witness). -/
def pRuntimeB : Parameter :=
  { name := "B", logical_type := .RuntimeArray, declared_type := "float*",
    usage := .Input, size := "N" }

def argsRoundTrip : List ArgInfo :=
  [pContig, pDimN, pRuntimeB].map (fun p => ((mkArgInfo p).toOption).getD default)

/-- A constant-shaped pointer descriptor: shape `(1,)`, affine map `(1,)`,
float32 (claim C6). -/
def pShape1 : Parameter :=
  { name := "y", logical_type := .AffineArray, declared_type := "float*",
    usage := .Input, shape := [1], affine_map := [1] }

def descShape1 : ArgInfo := ((mkArgInfo pShape1).toOption).getD default

/-- A 0-d float32 ndarray: a single element, with shape `()`. -/
def val0d : PyValue := .ndarray { dtype := "float32", shape := [], strides := [] }

/-- A runtime array whose size expression names a symbol with no matching
parameter (claim C4). -/
def pUnresolvedArr : Parameter :=
  { name := "B", logical_type := .RuntimeArray, declared_type := "float*",
    usage := .Input, size := "N*2" }

def fUnresolved : HatFunction := { name := "f", arguments := [pUnresolvedArr] }

def fiUnresolved : FunctionInfo := ((mkFunctionInfo fUnresolved).toOption).getD default

/-- An output runtime array with two output element dimensions (claim C7,
concrete scenario 4 of the specification). -/
def pOutArr : Parameter :=
  { name := "C", logical_type := .RuntimeArray, declared_type := "float**",
    usage := .Output, size := "M*K" }

def pDimM : Parameter :=
  { name := "M", logical_type := .Element, declared_type := "int64_t*", usage := .Output }

def pDimK : Parameter :=
  { name := "K", logical_type := .Element, declared_type := "int64_t*", usage := .Output }

def fOutShapes : HatFunction := { name := "g", arguments := [pOutArr, pDimM, pDimK] }

def fiOutShapes : FunctionInfo := ((mkFunctionInfo fOutShapes).toOption).getD default

/-- A post-call store for the output-shape witness: the callee wrote 7 into
the dimension scalar at index 1 and 9 into the one at index 2. -/
def storeC7 : Nat → Int := fun j => if j = 1 then 7 else if j = 2 then 9 else 0

/-- A constant batch-timing stream of 600 ms per batch. -/
def timings600 : Nat → ℚ := fun _ => 600

/-- Concrete scenario 2 of the specification: a runtime array with size
expression `"A_dim0*100*16"`, float32. -/
def pScenario2 : Parameter :=
  { name := "A", logical_type := .RuntimeArray, declared_type := "float*",
    usage := .Input, size := "A_dim0*100*16" }

def infoScenario2 : ArgInfo := ((mkArgInfo pScenario2).toOption).getD default

/-- The call-time environment resolving `A_dim0` to 5. -/
def envScenario2 : String → Option Int := fun s =>
  if s = "A_dim0" then some 5 else none

/-- The shape the output-array dimension loop iterates over
(after the `['']` normalization of `function_info.py` lines 56-57). -/
def normalizedOutputShape (info : ArgInfo) : List IntOrStr :=
  if info.shape.head? = some (.str "") then [] else info.shape

/-! ## Helper lemmas -/

lemma firstIdxWhere_spec {α : Type} (p : α → Bool) :
    ∀ (l : List α) (i : Nat), firstIdxWhere p l = some i →
      ∃ x, l.get? i = some x ∧ p x = true := by
  intro l
  induction l with
  | nil => intro i h; simp [firstIdxWhere] at h
  | cons x xs ih =>
    intro i h
    by_cases hp : p x
    · simp [firstIdxWhere, hp] at h
      subst h
      exact ⟨x, rfl, hp⟩
    · simp [firstIdxWhere, hp] at h
      obtain ⟨j, hj, rfl⟩ := h
      obtain ⟨y, hy, hpy⟩ := ih j hj
      exact ⟨y, by simpa using hy, hpy⟩

lemma le_foldl_max (xs : List Int) (a : Int) : a ≤ xs.foldl max a := by
  induction xs generalizing a with
  | nil => simp
  | cons x xs ih => exact le_trans (le_max_left a x) (ih (max a x))

lemma mem_le_foldl_max (xs : List Int) (a : Int) :
    ∀ x ∈ xs, x ≤ xs.foldl max a := by
  induction xs generalizing a with
  | nil => simp
  | cons y xs ih =>
    intro x hx
    rcases List.mem_cons.mp hx with rfl | hx
    · exact le_trans (le_max_right a x) (le_foldl_max xs (max a x))
    · exact ih (max a y) x hx

lemma pyMax_spec (l : List Int) (v : Int) (h : pyMax l = some v) :
    ∀ x ∈ l, x ≤ v := by
  cases l with
  | nil => simp [pyMax] at h
  | cons a xs =>
    simp only [pyMax, Option.some.injEq] at h
    subst h
    intro x hx
    rcases List.mem_cons.mp hx with rfl | hx
    · exact le_foldl_max xs x
    · exact mem_le_foldl_max xs a x hx

lemma pyMaxIdx_spec (l : List Int) (m : Nat) (h : pyMaxIdx l = some m) :
    ∃ v, l.get? m = some v ∧ ∀ x ∈ l, x ≤ v := by
  unfold pyMaxIdx at h
  cases hmax : pyMax l with
  | none => rw [hmax] at h; exact absurd h (by simp)
  | some v =>
    rw [hmax] at h
    rw [Option.some_bind] at h
    obtain ⟨x, hx, hpx⟩ := firstIdxWhere_spec _ l m h
    simp only [decide_eq_true_eq] at hpx
    subst hpx
    exact ⟨x, hx, pyMax_spec l x hmax⟩

/-! ## Claim theorems -/

/-- C1: for every affine-array parameter of rank ≥ 1 accepted by `ArgInfo`
construction, the byte strides are `element_num_bytes * affine_map[i]` for
every dimension `i`, the total element count is `shape[m] * affine_map[m]`
where `m` is the (first) index of the largest affine-map entry, and the total
byte size is `element_num_bytes * total_element_count`. -/
theorem affineArray_layout (p : Parameter) (info : ArgInfo)
    (h : mkArgInfo p = .ok info) (hl : p.logical_type = .AffineArray)
    (hr : p.shape ≠ []) :
    info.numpy_strides
        = some (p.affine_map.map (fun x => (info.element_num_bytes : Int) * x))
    ∧ (∀ i, (info.numpy_strides.getD []).get? i
        = (p.affine_map.get? i).map (fun x => (info.element_num_bytes : Int) * x))
    ∧ ∃ m am sm, pyMaxIdx p.affine_map = some m
        ∧ p.affine_map.get? m = some am
        ∧ (∀ x ∈ p.affine_map, x ≤ am)
        ∧ p.shape.get? m = some sm
        ∧ info.total_element_count = .int (sm * am)
        ∧ info.total_byte_size = .int ((info.element_num_bytes : Int) * (sm * am)) := by
  unfold mkArgInfo at h
  dsimp only at h
  cases hfind : ARG_TYPES.find? (fun e => e.1 = elementTypeOf p.declared_type (pointerLevelOf p.declared_type)) with
  | none => rw [hfind] at h; exact absurd h (by simp)
  | some e =>
    obtain ⟨nm, dt, sz⟩ := e
    rw [hfind, hl] at h
    dsimp only at h
    rw [if_pos hr] at h
    cases hmax : pyMaxIdx p.affine_map with
    | none => rw [hmax] at h; exact absurd h (by simp)
    | some m =>
      rw [hmax] at h
      dsimp only at h
      cases hget : p.shape.get? m with
      | none => rw [hget] at h; exact absurd h (by simp)
      | some sm =>
        rw [hget] at h
        dsimp only at h
        simp only [Except.ok.injEq] at h
        subst h
        obtain ⟨am, ham, hmax'⟩ := pyMaxIdx_spec p.affine_map m hmax
        have hgd : p.affine_map.getD m 0 = am := by
          rw [List.getD_eq_getElem?_getD, ← List.get?_eq_getElem?, ham]
          rfl
        refine ⟨rfl, ?_, m, am, sm, rfl, ham, hmax', hget, ?_, ?_⟩
        · intro i
          simp [List.getElem?_map, List.get?_eq_getElem?]
        · simp only [List.getD_eq_getElem?_getD, ← List.get?_eq_getElem?, ham,
            Option.getD_some]
        · simp only [List.getD_eq_getElem?_getD, ← List.get?_eq_getElem?, ham,
            Option.getD_some]

/-- C1 witness: concrete scenario 1 — shape `(2,2)`, affine map `(2,1)`,
float32 gives byte strides `(8,4)`, total element count 4, total byte size
16. -/
theorem affineArray_layout_witness :
    mkArgInfo pScenario1 = .ok infoScenario1
    ∧ infoScenario1.numpy_strides = some [(8 : Int), 4]
    ∧ infoScenario1.total_element_count = .int 4
    ∧ infoScenario1.total_byte_size = .int 16 := by
  have happ := affineArray_layout pScenario1 infoScenario1 (by decide) (by decide) (by decide)
  exact ⟨by decide, by decide, by decide, by decide⟩

/-- C2: for a single non-benchmark call, the five lifecycle phases run
exactly once each in the order init_runtime, init_batch, run_batch,
cleanup_batch, cleanup_runtime; `cleanup_batch` and `cleanup_runtime` still
run when `run_batch` raises, and `cleanup_runtime` still runs when
`init_batch` raises. -/
theorem callable_lifecycle (fails : LPhase → Bool) :
    (fails .init_runtime = false → fails .init_batch = false → fails .run_batch = false →
      callTrace fails
        = [.init_runtime, .init_batch, .run_batch, .cleanup_batch, .cleanup_runtime])
    ∧ (fails .init_runtime = false → fails .init_batch = false → fails .run_batch = true →
      .cleanup_batch ∈ callTrace fails ∧ .cleanup_runtime ∈ callTrace fails)
    ∧ (fails .init_runtime = false → fails .init_batch = true →
      .cleanup_runtime ∈ callTrace fails) := by
  refine ⟨?_, ?_, ?_⟩ <;> intros <;> simp [callTrace, *]

/-- C2 witness: when exactly `run_batch` raises, both cleanup phases are
still invoked. -/
theorem callable_lifecycle_witness :
    .cleanup_batch ∈ callTrace failsRunBatch ∧ .cleanup_runtime ∈ callTrace failsRunBatch :=
  (callable_lifecycle failsRunBatch).2.1 rfl rfl rfl

/-- C3 counterexample: a parameter record with pointer depth 3 and a
supported element type is *accepted* by descriptor construction
(`ArgInfo.__init__` raises no unsupported-pointer-depth error), refuting the
claim that depth > 2 fails at descriptor-construction time. -/
theorem pointer_depth3_descriptor_accepted :
    pointerLevelOf pDepth3.declared_type = 3
    ∧ exceptOk (mkArgInfo pDepth3) = true := by decide

/-- C3 amended: the unsupported-pointer-depth error is raised when an
`ArgValue` is constructed for a descriptor of pointer depth > 2
(`ArgValue.__init__`), not at descriptor construction. -/
theorem pointer_depth_rejected_at_value_construction (info : ArgInfo) (v : Option PyValue)
    (h : 2 < info.pointer_level) :
    mkArgValue info v = .error "Pointer levels > 2 are not supported" := by
  unfold mkArgValue
  rw [if_pos h]

/-- C3 witness: binding a value to the depth-3 descriptor raises. -/
theorem pointer_depth_rejected_witness :
    mkArgValue infoDepth3 none = .error "Pointer levels > 2 are not supported" :=
  pointer_depth_rejected_at_value_construction infoDepth3 none (by decide)

/-- C10: an `Element` parameter's ctypes type is by-value exactly when its
usage is `Input`, or its usage is `InputOutput` and its element type is
`int64_t`; every other element parameter gets a pointer-to-scalar type. -/
theorem element_byvalue_condition (p : Parameter) (info : ArgInfo)
    (h : mkArgInfo p = .ok info) (hl : p.logical_type = .Element) :
    info.ctypes_type.isPtr = false ↔
      (p.usage = .Input ∨
        (elementTypeOf p.declared_type (pointerLevelOf p.declared_type) = "int64_t"
          ∧ p.usage = .InputOutput)) := by
  unfold mkArgInfo at h
  dsimp only at h
  cases hfind : ARG_TYPES.find? (fun e => e.1 = elementTypeOf p.declared_type (pointerLevelOf p.declared_type)) with
  | none => rw [hfind] at h; exact absurd h (by simp)
  | some e =>
    obtain ⟨nm, dt, sz⟩ := e
    rw [hfind, hl] at h
    dsimp only at h
    by_cases hc : p.usage = .Input ∨
        (elementTypeOf p.declared_type (pointerLevelOf p.declared_type) = "int64_t"
          ∧ p.usage = .InputOutput)
    · rw [if_pos hc] at h
      simp only [Except.ok.injEq] at h
      subst h
      simpa [CTy.isPtr] using hc
    · rw [if_neg hc] at h
      simp only [Except.ok.injEq] at h
      subst h
      simpa [CTy.isPtr] using hc

/-- C10 witness: an `InputOutput` `int64_t` element is passed by value while
an `InputOutput` `float` element is passed by pointer. -/
theorem element_byvalue_condition_witness :
    infoIOInt64.ctypes_type.isPtr = false ∧ infoIOFloat.ctypes_type.isPtr = true := by
  constructor
  · exact (element_byvalue_condition pIOInt64 infoIOInt64 (by decide) (by decide)).mpr
      (Or.inr ⟨by decide, by decide⟩)
  · cases hb : infoIOFloat.ctypes_type.isPtr with
    | true => rfl
    | false =>
      rcases (element_byvalue_condition pIOFloat infoIOFloat (by decide) (by decide)).mp hb
        with h1 | ⟨h2, _⟩
      · exact absurd h1 (by decide)
      · exact absurd h2 (by decide)

lemma benchLoop_spec (timings : Nat → ℚ) (iters batch_size : Nat) (mt : ℚ) :
    ∀ (fuel j : Nat) (acc : List ℚ) (itns : Nat) (ts : List ℚ) (itn' : Nat),
      benchLoop timings iters batch_size mt fuel j acc itns = some (ts, itn') →
      ts.sum ≥ mt ∧ ts.length ≥ batch_size
        ∧ ∃ n, 0 < n ∧ ts.length = acc.length + n ∧ itn' = itns + n * iters := by
  intro fuel
  induction fuel with
  | zero => intro j acc itns ts itn' h; simp [benchLoop] at h
  | succ fuel ih =>
    intro j acc itns ts itn' h
    rw [benchLoop] at h
    by_cases hc : (acc ++ [timings j]).sum ≥ mt ∧ (acc ++ [timings j]).length ≥ batch_size
    · rw [if_pos hc] at h
      simp only [Option.some.injEq, Prod.mk.injEq] at h
      obtain ⟨rfl, rfl⟩ := h
      exact ⟨hc.1, hc.2, 1, by simp, by simp, by simp⟩
    · rw [if_neg hc] at h
      obtain ⟨h1, h2, n, hn, hlen, hitn⟩ := ih (j + 1) (acc ++ [timings j]) (itns + iters) ts itn' h
      refine ⟨h1, h2, n + 1, by omega, ?_, ?_⟩
      · simp at hlen; omega
      · rw [hitn]; ring

/-- C8: whenever the benchmark loop returns, the list of batch timings has
length at least the configured minimum batch count, its sum is at least the
configured minimum time (in ms), and the returned mean is the sum of the
batch timings divided by the total number of iterations performed
(batches times iterations-per-batch). -/
theorem benchmark_loop_invariant (timings : Nat → ℚ) (iters batch_size : Nat)
    (min_time_in_sec : ℚ) (fuel : Nat) (mean : ℚ) (ts : List ℚ)
    (h : benchmark timings iters batch_size min_time_in_sec fuel = some (mean, ts)) :
    ts.length ≥ batch_size
    ∧ ts.sum ≥ min_time_in_sec * 1000
    ∧ mean = ts.sum / ((ts.length * iters : Nat) : ℚ) := by
  unfold benchmark at h
  cases hloop : benchLoop timings iters batch_size (min_time_in_sec * 1000) fuel 0 [] 0 with
  | none => rw [hloop] at h; exact absurd h (by simp)
  | some r =>
    obtain ⟨ts0, itn⟩ := r
    rw [hloop] at h
    simp only [Option.some.injEq, Prod.mk.injEq] at h
    obtain ⟨rfl, rfl⟩ := h
    obtain ⟨h1, h2, n, hn, hlen, hitn⟩ :=
      benchLoop_spec timings iters batch_size (min_time_in_sec * 1000) fuel 0 [] 0 ts0 itn hloop
    simp only [List.length_nil, Nat.zero_add] at hlen
    subst hlen
    subst hitn
    exact ⟨h2, h1, by norm_num⟩

/-- C8 witness: with 600 ms batches, 2 iterations per batch, minimum batch
count 3 and minimum time 1 s, the loop returns three batches summing to
1800 ms and a mean of 300 ms per iteration. -/
theorem benchmark_loop_invariant_witness :
    benchmark timings600 2 3 1 10 = some (300, [600, 600, 600])
    ∧ (3 : Nat) ≤ ([600, 600, 600] : List ℚ).length
    ∧ ([600, 600, 600] : List ℚ).sum ≥ 1 * 1000
    ∧ (300 : ℚ) = ([600, 600, 600] : List ℚ).sum
        / (((([600, 600, 600] : List ℚ).length * 2 : Nat)) : ℚ) := by
  have h : benchmark timings600 2 3 1 10 = some (300, [600, 600, 600]) := by
    simp only [benchmark, benchLoop, timings600]
    norm_num
  have happ := benchmark_loop_invariant timings600 2 3 1 10 300 [600, 600, 600] h
  exact ⟨h, happ.1, happ.2.1, happ.2.2⟩


lemma outputDimRefsGo_cons (fi : FunctionInfo) (d : IntOrStr) (rest : List IntOrStr) :
    outputDimRefsGo fi (d :: rest)
      = (if integer_like d then
          match pyIntOf d with
          | some n => (outputDimRefsGo fi rest).map (fun rs => .const n :: rs)
          | none => .error "unreachable: integer_like entry without int()"
        else
          match d with
          | .int _ => .error "KeyError"
          | .str t =>
            match namesToIndicesLookup fi.arguments t with
            | none => .error ("KeyError: " ++ t)
            | some j =>
              match fi.desc.arguments.get? j with
              | none => .error "IndexError"
              | some dh =>
                if dh.logical_type = .Element then
                  if dh.usage = .Output then
                    (outputDimRefsGo fi rest).map (fun rs => .ref j :: rs)
                  else
                    .error "AssertionError: dimension of an output array must be an Output Element"
                else
                  .error "AssertionError: dimension argument must be an Element") := rfl

lemma outputDimRefsGo_spec (fi : FunctionInfo) :
    ∀ (entries : List IntOrStr) (refs : List DimRef),
      outputDimRefsGo fi entries = .ok refs →
      refs.length = entries.length
      ∧ (∀ k t, entries.get? k = some (.str t) → integer_like (.str t) = false →
          ∃ j dh, namesToIndicesLookup fi.arguments t = some j
            ∧ fi.desc.arguments.get? j = some dh
            ∧ dh.logical_type = .Element ∧ dh.usage = .Output
            ∧ refs.get? k = some (.ref j))
      ∧ (∀ k e n, entries.get? k = some e → pyIntOf e = some n →
          refs.get? k = some (.const n)) := by
  intro entries
  induction entries with
  | nil =>
    intro refs h
    simp only [outputDimRefsGo, Except.ok.injEq] at h
    subst h
    refine ⟨rfl, ?_, ?_⟩ <;> intro k <;> simp
  | cons d rest ih =>
    intro refs h
    rw [outputDimRefsGo_cons] at h
    by_cases hint : integer_like d
    · rw [if_pos hint] at h
      cases hpy : pyIntOf d with
      | none => rw [hpy] at h; exact absurd h (by simp)
      | some n =>
        rw [hpy] at h
        cases hrest : outputDimRefsGo fi rest with
        | error e => rw [hrest] at h; exact absurd h (by simp [Except.map])
        | ok refs' =>
          rw [hrest] at h
          simp only [Except.map, Except.ok.injEq] at h
          subst h
          obtain ⟨hlen, hsym, hconst⟩ := ih refs' hrest
          refine ⟨by simp [hlen], ?_, ?_⟩
          · intro k t hk hnl
            cases k with
            | zero =>
              simp only [List.get?_cons_zero, Option.some.injEq] at hk
              subst hk
              exact absurd hint (by simp [hnl])
            | succ k => exact hsym k t (by simpa using hk) hnl
          · intro k e n hk hpy'
            cases k with
            | zero =>
              simp only [List.get?_cons_zero, Option.some.injEq] at hk
              subst hk
              rw [hpy] at hpy'
              simp only [Option.some.injEq] at hpy'
              subst hpy'
              rfl
            | succ k => exact hconst k e n (by simpa using hk) hpy'
    · rw [if_neg hint] at h
      cases d with
      | int m => exact absurd (by simp [integer_like, pyIntOf]) hint
      | str t =>
        dsimp only at h
        cases hlook : namesToIndicesLookup fi.arguments t with
        | none => rw [hlook] at h; exact absurd h (by simp)
        | some j =>
          rw [hlook] at h
          dsimp only at h
          cases hdh : fi.desc.arguments.get? j with
          | none => rw [hdh] at h; exact absurd h (by simp)
          | some dh =>
            rw [hdh] at h
            dsimp only at h
            by_cases helem : dh.logical_type = ParameterType.Element
            · rw [if_pos helem] at h
              by_cases hdout : dh.usage = UsageType.Output
              · rw [if_pos hdout] at h
                cases hrest : outputDimRefsGo fi rest with
                | error e => rw [hrest] at h; exact absurd h (by simp [Except.map])
                | ok refs' =>
                  rw [hrest] at h
                  simp only [Except.map, Except.ok.injEq] at h
                  subst h
                  obtain ⟨hlen, hsym, hconst⟩ := ih refs' hrest
                  refine ⟨by simp [hlen], ?_, ?_⟩
                  · intro k t' hk hnl
                    cases k with
                    | zero =>
                      simp only [List.get?_cons_zero, Option.some.injEq, IntOrStr.str.injEq] at hk
                      subst hk
                      exact ⟨j, dh, hlook, hdh, helem, hdout, rfl⟩
                    | succ k => exact hsym k t' (by simpa using hk) hnl
                  · intro k e n hk hpy'
                    cases k with
                    | zero =>
                      simp only [List.get?_cons_zero, Option.some.injEq] at hk
                      subst hk
                      exact absurd (by simp [integer_like, hpy']) hint
                    | succ k => exact hconst k e n (by simpa using hk) hpy'
              · rw [if_neg hdout] at h; exact absurd h (by simp)
            · rw [if_neg helem] at h; exact absurd h (by simp)

/-- C7: for an output runtime array, `preprocess` records, in shape order,
cross-references to the dimension arguments named by the shape — each an
`Output` `Element` resolved through the name-to-index map — and
`postprocess` presents to the caller exactly the integers stored in those
cross-referenced scalars (constants stay themselves). -/
theorem output_shape_from_dim_cross_references (fi : FunctionInfo) (i : Nat)
    (info : ArgInfo) (hat : Parameter)
    (hinfo : fi.arguments.get? i = some info)
    (hhat : fi.desc.arguments.get? i = some hat)
    (hrt : hat.logical_type = .RuntimeArray) (hout : hat.usage = .Output)
    (refs : List DimRef)
    (h : buildOutputDimRefs fi i = .ok refs) (store : Nat → Int) :
    refs.length = (normalizedOutputShape info).length
    ∧ (∀ k t, (normalizedOutputShape info).get? k = some (.str t) →
        integer_like (.str t) = false →
        ∃ j dh, namesToIndicesLookup fi.arguments t = some j
          ∧ fi.desc.arguments.get? j = some dh
          ∧ dh.logical_type = .Element ∧ dh.usage = .Output
          ∧ refs.get? k = some (.ref j)
          ∧ (postprocessOutputShape store refs).get? k = some (store j))
    ∧ (∀ k e n, (normalizedOutputShape info).get? k = some e → pyIntOf e = some n →
        refs.get? k = some (.const n)
        ∧ (postprocessOutputShape store refs).get? k = some n) := by
  unfold normalizedOutputShape
  unfold buildOutputDimRefs at h
  rw [hinfo, hhat] at h
  dsimp only at h
  rw [if_pos ⟨hrt, hout⟩] at h
  obtain ⟨hlen, hsym, hconst⟩ := outputDimRefsGo_spec fi _ refs h
  have hpost : ∀ k r, refs.get? k = some r →
      (postprocessOutputShape store refs).get? k
        = some (match r with | .const n => n | .ref j => store j) := by
    intro k r hk
    unfold postprocessOutputShape
    rw [List.get?_eq_getElem?, List.getElem?_map, ← List.get?_eq_getElem?, hk]
    rfl
  refine ⟨hlen, ?_, ?_⟩
  · intro k t hk hnl
    obtain ⟨j, dh, h1, h2, h3, h4, h5⟩ := hsym k t hk hnl
    exact ⟨j, dh, h1, h2, h3, h4, h5, hpost k _ h5⟩
  · intro k e n hk hpy
    exact ⟨hconst k e n hk hpy, hpost k _ (hconst k e n hk hpy)⟩

/-- C7 witness: concrete scenario 4 — an output runtime array `C` with shape
`M*K` naming two Output Element dimensions; after the callee writes 7 and 9
into those scalars, the caller-visible shape is the 2-tuple `[7, 9]`. -/
theorem output_shape_witness :
    buildOutputDimRefs fiOutShapes 0 = .ok [.ref 1, .ref 2]
    ∧ postprocessOutputShape storeC7 [.ref 1, .ref 2] = [7, 9] := by
  have h : buildOutputDimRefs fiOutShapes 0 = .ok [.ref 1, .ref 2] := by decide
  have happ := output_shape_from_dim_cross_references fiOutShapes 0
    ((fiOutShapes.arguments.getD 0 default)) pOutArr (by decide) (by decide)
    (by decide) (by decide) [.ref 1, .ref 2] h storeC7
  exact ⟨h, by decide⟩

example (a b : String) : (a ++ b).data = a.data ++ b.data := by cases a; cases b; rfl
example (s : String) : (⟨s.data⟩ : String) = s := by cases s; rfl
example : (toString (4 : Nat)) = "4" := by decide

lemma splitOnChar_cons (c a : Char) (rest : List Char) :
    splitOnChar c (a :: rest)
      = (if a = c then [] :: splitOnChar c rest
         else match splitOnChar c rest with
           | [] => [[a]]
           | h :: t => (a :: h) :: t) := rfl

lemma splitOnChar_ne_nil (c : Char) (l : List Char) : splitOnChar c l ≠ [] := by
  cases l with
  | nil => simp [splitOnChar]
  | cons a rest =>
    rw [splitOnChar_cons]
    by_cases h : a = c
    · simp [h]
    · rw [if_neg h]
      cases splitOnChar c rest <;> simp

lemma splitOnChar_sep (c : Char) (pre rest : List Char) (h : ∀ x ∈ pre, ¬(x = c)) :
    splitOnChar c (pre ++ c :: rest) = pre :: splitOnChar c rest := by
  induction pre with
  | nil => simp [splitOnChar_cons]
  | cons a pre ih =>
    have ha : ¬(a = c) := h a (by simp)
    have h' : ∀ x ∈ pre, ¬(x = c) := fun x hx => h x (by simp [hx])
    rw [List.cons_append, splitOnChar_cons, if_neg ha, ih h']

lemma dropOneLeadSpace_space (r : List Char) : dropOneLeadSpace (' ' :: r) = r := rfl

lemma dropOneTrailSpace_append_space (l : List Char) :
    dropOneTrailSpace (l ++ [' ']) = l := by
  unfold dropOneTrailSpace
  rw [List.reverse_append]
  simp only [List.reverse_cons, List.reverse_nil, List.nil_append, List.singleton_append]
  rw [dropOneLeadSpace_space, List.reverse_reverse]

lemma string_mk_data (s : String) : (⟨s.data⟩ : String) = s := by cases s; rfl

lemma splitStar_sep_prefix (numS s : String)
    (hne : numS.data ≠ [])
    (hpre : ∀ x ∈ numS.data, ¬(x = '*') ∧ ¬(x = ' ')) :
    splitStar (numS ++ " * " ++ s) = numS :: splitStar s := by
  have hdata : (numS ++ " * " ++ s).data
      = (numS.data ++ [' ']) ++ ('*' :: (' ' :: s.data)) := by
    cases numS; cases s; simp [List.append_assoc]
  have hsep : splitOnChar '*' ((numS.data ++ [' ']) ++ ('*' :: (' ' :: s.data)))
      = (numS.data ++ [' ']) :: splitOnChar '*' (' ' :: s.data) := by
    refine splitOnChar_sep '*' _ _ ?_
    intro x hx
    rcases List.mem_append.mp hx with hx | hx
    · exact (hpre x hx).1
    · simp at hx
      subst hx
      decide
  cases hsplit : splitOnChar '*' s.data with
  | nil => exact absurd hsplit (splitOnChar_ne_nil '*' s.data)
  | cons hpc tpc =>
    have hsp2 : splitOnChar '*' (' ' :: s.data) = (' ' :: hpc) :: tpc := by
      rw [splitOnChar_cons, if_neg (by decide), hsplit]
    unfold splitStar
    rw [hdata, hsep, hsp2, hsplit]
    cases tpc with
    | nil =>
      simp only [adjustPieces, dropOneLeadSpace_space, List.map]
      rw [dropOneTrailSpace_append_space, string_mk_data]
    | cons t0 t1 =>
      simp only [adjustPieces, dropOneLeadSpace_space, List.map]
      rw [dropOneTrailSpace_append_space, string_mk_data]

lemma mapM_map_str (env : String → Option Int) (l : List String) :
    (l.map IntOrStr.str).mapM (resolveEntry env)
      = l.mapM (fun t => resolveEntry env (.str t)) := by
  induction l with
  | nil => rfl
  | cons t l ih => simp only [List.map_cons, List.mapM_cons, ih]

lemma ARG_TYPES_size_cases (et nm dt : String) (sz : Nat)
    (h : ARG_TYPES.find? (fun e => e.1 = et) = some (nm, dt, sz)) :
    sz = 1 ∨ sz = 2 ∨ sz = 4 ∨ sz = 8 := by
  have hmem := List.mem_of_find?_eq_some h
  simp only [ARG_TYPES, List.mem_cons, List.not_mem_nil, or_false,
    Prod.mk.injEq] at hmem
  rcases hmem with ⟨_, _, h⟩|⟨_, _, h⟩|⟨_, _, h⟩|⟨_, _, h⟩|⟨_, _, h⟩|⟨_, _, h⟩|⟨_, _, h⟩
    |⟨_, _, h⟩|⟨_, _, h⟩|⟨_, _, h⟩|⟨_, _, h⟩|⟨_, _, h⟩ <;> omega

/-- C9: for a runtime-array descriptor, once every dimension symbol is
resolved to an integer, the total-byte-size expression evaluates to the
element size times the product of the resolved shape, and the
total-element-count expression evaluates to that product. -/
theorem runtimeArray_byte_size_expression (p : Parameter) (info : ArgInfo)
    (env : String → Option Int) (sh : List Int)
    (h : mkArgInfo p = .ok info) (hl : p.logical_type = .RuntimeArray)
    (hres : resolveShape env info.shape = some sh) :
    info.total_element_count = .str p.size
    ∧ evalSizeExpr env p.size = some sh.prod
    ∧ ∃ tbs, info.total_byte_size = .str tbs
        ∧ evalSizeExpr env tbs = some ((info.element_num_bytes : Int) * sh.prod) := by
  unfold mkArgInfo at h
  dsimp only at h
  cases hfind : ARG_TYPES.find? (fun e => e.1 = elementTypeOf p.declared_type (pointerLevelOf p.declared_type)) with
  | none => rw [hfind] at h; exact absurd h (by simp)
  | some e =>
    obtain ⟨nm, dt, sz⟩ := e
    rw [hfind, hl] at h
    dsimp only at h
    simp only [Except.ok.injEq] at h
    subst h
    have hb : (splitStar p.size).mapM (fun t => resolveEntry env (.str t)) = some sh := by
      rw [← mapM_map_str]
      exact hres
    have hsize : evalSizeExpr env p.size = some sh.prod := by
      unfold evalSizeExpr
      rw [hb]
      rfl
    refine ⟨rfl, hsize, toString sz ++ " * " ++ p.size, rfl, ?_⟩
    have hcases := ARG_TYPES_size_cases _ _ _ _ hfind
    have hsplit : splitStar (toString sz ++ " * " ++ p.size)
        = toString sz :: splitStar p.size := by
      rcases hcases with rfl | rfl | rfl | rfl <;>
        exact splitStar_sep_prefix _ _ (by decide) (by decide)
    have hnum : resolveEntry env (.str (toString sz)) = some (sz : Int) := by
      rcases hcases with rfl | rfl | rfl | rfl <;> rfl
    unfold evalSizeExpr
    rw [hsplit, List.mapM_cons, hnum, hb]
    simp

/-- C9 witness: concrete scenario 2 — size expression `"A_dim0*100*16"` with
`A_dim0 = 5` resolves to 8000 elements and 32000 bytes for float32. -/
theorem runtimeArray_byte_size_witness :
    resolveShape envScenario2 infoScenario2.shape = some [5, 100, 16]
    ∧ evalSizeExpr envScenario2 "A_dim0*100*16" = some 8000
    ∧ evalSizeExpr envScenario2 "4 * A_dim0*100*16" = some 32000 := by
  have hres : resolveShape envScenario2 infoScenario2.shape = some [5, 100, 16] := by decide
  have happ := runtimeArray_byte_size_expression pScenario2 infoScenario2 envScenario2
    [5, 100, 16] (by decide) (by decide) hres
  exact ⟨hres, by decide, by decide⟩

lemma genAll_cons (allArgs : List ArgInfo) (g : Nat → Nat) (a : ArgInfo)
    (rest : List ArgInfo) (dims : DimMap) (k : Nat) :
    genAll allArgs g (a :: rest) dims k
      = (match genOne allArgs g a dims k with
         | .error e => .error e
         | .ok (pr, dims', k') =>
           match genAll allArgs g rest dims' k' with
           | .error e => .error e
           | .ok (prs, dims'', k'') => .ok (pr :: prs, dims'', k'')) := rfl

lemma genAll_ok_elem (allArgs : List ArgInfo) (g : Nat → Nat) :
    ∀ (l : List ArgInfo) (dims : DimMap) (k : Nat) r,
      genAll allArgs g l dims k = .ok r →
      ∀ a ∈ l, ∃ dims' k' out, genOne allArgs g a dims' k' = .ok out := by
  intro l
  induction l with
  | nil => intro dims k r h a ha; simp at ha
  | cons b rest ih =>
    intro dims k r h a ha
    rw [genAll_cons] at h
    cases hone : genOne allArgs g b dims k with
    | error e => rw [hone] at h; exact absurd h (by simp)
    | ok out =>
      obtain ⟨pr, dims', k'⟩ := out
      rw [hone] at h
      dsimp only at h
      rcases List.mem_cons.mp ha with rfl | ha
      · exact ⟨dims, k, (pr, dims', k'), hone⟩
      · cases hrest : genAll allArgs g rest dims' k' with
        | error e => rw [hrest] at h; exact absurd h (by simp)
        | ok r' => exact ih dims' k' r' hrest a ha

lemma dimIndicesGo_cons (all : List ArgInfo) (s : IntOrStr) (rest : List IntOrStr) :
    dimIndicesGo all (s :: rest)
      = (match s with
         | .int _ => .error "is not an argument to the function"
         | .str t =>
           match findIdxByName all t with
           | none => .error (t ++ " is not an argument to the function")
           | some i => (dimIndicesGo all rest).map (fun is => i :: is)) := rfl

lemma dimIndicesGo_ok_resolves (all : List ArgInfo) :
    ∀ (entries : List IntOrStr) (idxs : List Nat),
      dimIndicesGo all entries = .ok idxs →
      ∀ t, IntOrStr.str t ∈ entries → ∃ j, findIdxByName all t = some j := by
  intro entries
  induction entries with
  | nil => intro idxs h t ht; simp at ht
  | cons s rest ih =>
    intro idxs h t ht
    rw [dimIndicesGo_cons] at h
    cases s with
    | int m => exact absurd h (by simp)
    | str u =>
      dsimp only at h
      cases hfind : findIdxByName all u with
      | none => rw [hfind] at h; exact absurd h (by simp)
      | some j =>
        rw [hfind] at h
        rcases List.mem_cons.mp ht with heq | ht
        · obtain rfl : u = t := by injection heq with h'; exact h'.symm
          exact ⟨j, hfind⟩
        · cases hrest : dimIndicesGo all rest with
          | error e => rw [hrest] at h; exact absurd h (by simp [Except.map])
          | ok idxs' => exact ih idxs' hrest t ht

/-- C4 counterexample: a function whose runtime array names the unknown
dimension symbol `N` is accepted by `FunctionInfo` construction — the
unresolved-symbol error is *not* raised while the signature is being built
(it is raised later, during argument-value generation). -/
theorem unresolved_symbol_not_raised_at_construction :
    exceptOk (mkFunctionInfo fUnresolved) = true
    ∧ findIdxByName fiUnresolved.arguments "N" = none
    ∧ exceptOk (generate_arg_values fiUnresolved.arguments g0) = false := by decide

/-- C4 amended: a runtime-array shape symbol with no matching parameter
name does not abort `FunctionInfo` construction; the unresolved-symbol
error is raised during argument-value generation
(`generate_arg_values` / `get_dimension_arg_indices`). -/
theorem unresolved_symbol_raised_at_generation (f : HatFunction) (fi : FunctionInfo)
    (g : Nat → Nat) (hok : mkFunctionInfo f = .ok fi)
    (a : ArgInfo) (ha : a ∈ fi.arguments)
    (husage : a.usage ≠ .Output) (hconst : ¬ a.is_constant_shaped = true)
    (t : String) (ht : IntOrStr.str t ∈ a.shape)
    (htruthy : pyTruthy (.str t) = true) (hnl : integer_like (.str t) = false)
    (hmiss : findIdxByName fi.arguments t = none) :
    exceptOk (mkFunctionInfo f) = true
    ∧ exceptOk (generate_arg_values fi.arguments g) = false := by
  refine ⟨by rw [hok]; rfl, ?_⟩
  cases hgen : generate_arg_values fi.arguments g with
  | error e => rfl
  | ok prs =>
    exfalso
    unfold generate_arg_values at hgen
    cases hall : genAll fi.arguments g fi.arguments [] 0 with
    | error e => rw [hall] at hgen; exact absurd hgen (by simp)
    | ok r =>
      obtain ⟨dims', k', out, hone⟩ := genAll_ok_elem fi.arguments g fi.arguments [] 0 r hall a ha
      unfold genOne at hone
      rw [if_pos ⟨husage, hconst⟩] at hone
      cases hidx : get_dimension_arg_indices a fi.arguments with
      | error e => rw [hidx] at hone; exact absurd hone (by simp)
      | ok idxs =>
        have hmem : IntOrStr.str t ∈ a.shape.filter (fun x => pyTruthy x && ! integer_like x) := by
          rw [List.mem_filter]
          exact ⟨ht, by rw [htruthy, hnl]; rfl⟩
        obtain ⟨j, hj⟩ := dimIndicesGo_ok_resolves fi.arguments _ idxs hidx t hmem
        rw [hmiss] at hj
        exact absurd hj (by simp)

/-- C4 witness: the concrete function with runtime array `B` of size
`"N*2"` and no parameter `N`. -/
theorem unresolved_symbol_raised_at_generation_witness :
    exceptOk (mkFunctionInfo fUnresolved) = true
    ∧ exceptOk (generate_arg_values fiUnresolved.arguments g0) = false :=
  unresolved_symbol_raised_at_generation fUnresolved fiUnresolved g0 (by decide)
    (fiUnresolved.arguments.getD 0 default) (by decide) (by decide) (by decide)
    "N" (by decide) (by decide) (by decide) (by decide)

lemma allIntegerLike_mapM (l : List IntOrStr) (h : l.all integer_like = true) :
    ∃ ds, l.mapM pyIntOf = some ds := by
  induction l with
  | nil => exact ⟨[], rfl⟩
  | cons e l ih =>
    simp only [List.all_cons, Bool.and_eq_true] at h
    obtain ⟨n, hn⟩ := Option.isSome_iff_exists.mp h.1
    obtain ⟨ds, hds⟩ := ih h.2
    exact ⟨n :: ds, by rw [List.mapM_cons, hn, hds]; rfl⟩

/-- C6 counterexample: a single-element value (a 0-d float32 array) against
a constant-shaped descriptor of shape `(1,)`: the source `verify` accepts it
via the size fallback (checking neither shape nor strides), while the
claim's description — exact shape/stride equality whenever the shape is
fully constant, with the size-1 fallback reserved for fully-dynamic shapes —
would reject it. -/
theorem verify_constant_size1_skips_shape_check :
    descShape1.is_constant_shaped = true
    ∧ pyVerify val0d descShape1 = .ok ()
    ∧ verifyClaimedC6 val0d descShape1 = false := by decide

/-- C6 amended: `ArgValue.verify` on a pointer-depth-1 descriptor requires
an ndarray of the declared dtype; when the descriptor shape is fully
constant *and* the value has more than one element it checks exact shape and
byte-stride equality; when the shape is fully constant and the value has at
most one element it falls back to comparing the total element count only
(the size-1 fallback applies to constant shapes, not fully-dynamic ones);
fully-dynamic shapes get only the kind and dtype checks; non-pointer and
pointer-depth-2 descriptors are never rejected. -/
theorem verify_characterization (v : PyValue) (desc : ArgInfo) :
    (desc.pointer_level ≠ 1 → pyVerify v desc = .ok ())
    ∧ (desc.pointer_level = 1 → pyVerify v desc = .ok () →
        ∃ a, v = .ndarray a ∧ a.dtype = desc.numpy_dtype)
    ∧ (∀ a, v = .ndarray a → desc.pointer_level = 1 →
        desc.is_constant_shaped = false → a.dtype = desc.numpy_dtype →
        pyVerify v desc = .ok ())
    ∧ (∀ a, v = .ndarray a → desc.pointer_level = 1 →
        desc.is_constant_shaped = true → a.dtype = desc.numpy_dtype → a.size > 1 →
        (pyVerify v desc = .ok () ↔
          intShapeAll? desc.shape = some a.shape ∧ effNumpyStrides desc = a.strides))
    ∧ (∀ a, v = .ndarray a → desc.pointer_level = 1 →
        desc.is_constant_shaped = true → a.dtype = desc.numpy_dtype → ¬(a.size > 1) →
        (pyVerify v desc = .ok () ↔ pyIntOf desc.total_element_count = some a.size)) := by
  refine ⟨?_, ?_, ?_, ?_, ?_⟩
  · intro h
    unfold pyVerify
    rw [if_neg h]
  · intro h hok
    unfold pyVerify at hok
    rw [if_pos h] at hok
    cases v with
    | ndarray a =>
      refine ⟨a, rfl, ?_⟩
      dsimp only at hok
      by_cases hd : desc.numpy_dtype ≠ a.dtype
      · rw [if_pos hd] at hok
        exact absurd hok (by simp)
      · exact (not_ne_iff.mp hd).symm
    | scalar dt n => exact absurd hok (by simp)
    | ptrHandle => exact absurd hok (by simp)
    | pyInt n => exact absurd hok (by simp)
  · intro a hv h hcst hdt
    subst hv
    unfold pyVerify
    rw [if_pos h]
    dsimp only
    rw [if_neg (by simp [hdt]), if_neg (by simp [hcst])]
  · intro a hv h hcst hdt hsz
    subst hv
    obtain ⟨ds, hds⟩ := allIntegerLike_mapM desc.shape hcst
    have heff : effNumpyStrides desc
        = (match desc.numpy_strides with
           | some st => st
           | none => (ds.drop 1 ++ [1]).map (fun x => x * (desc.element_num_bytes : Int))) := by
      unfold effNumpyStrides intShapeAll?
      rw [hds]
      rfl
    unfold pyVerify
    rw [if_pos h]
    dsimp only
    rw [if_neg (by simp [hdt]), if_pos hcst, if_pos hsz]
    unfold intShapeAll?
    rw [hds]
    dsimp only
    by_cases h1 : ds = a.shape
    · rw [if_neg (not_not_intro h1)]
      by_cases h2 : (match desc.numpy_strides with
           | some st => st
           | none => (ds.drop 1 ++ [1]).map (fun x => x * (desc.element_num_bytes : Int)))
          = a.strides
      · rw [if_neg (not_not_intro h2)]
        constructor
        · intro _
          exact ⟨by rw [h1], by rw [heff]; exact h2⟩
        · intro _
          rfl
      · rw [if_pos h2]
        simp only [heff]
        constructor
        · intro hc; exact absurd hc (by simp)
        · intro ⟨_, hc⟩; exact absurd hc h2
    · rw [if_pos h1]
      constructor
      · intro hc; exact absurd hc (by simp)
      · intro ⟨hc, _⟩
        injection hc with hc
        exact absurd hc h1
  · intro a hv h hcst hdt hsz
    subst hv
    unfold pyVerify
    rw [if_pos h]
    dsimp only
    rw [if_neg (by simp [hdt]), if_pos hcst, if_neg hsz]
    cases hpy : pyIntOf desc.total_element_count with
    | none =>
      constructor
      · intro hc; exact absurd hc (by simp)
      · intro hc; exact absurd hc (by simp)
    | some n =>
      dsimp only
      by_cases hn : a.size = n
      · rw [if_neg (by simp [hn])]
        simp [hn]
      · rw [if_pos hn]
        constructor
        · intro hc; exact absurd hc (by simp)
        · intro hc
          injection hc with hc
          exact absurd hc.symm hn

/-- C6 witness: the characterization applied to the size-1 fallback case —
the 0-d value against the constant shape `(1,)` descriptor is accepted
because the total element count (1) matches. -/
theorem verify_characterization_witness :
    pyVerify val0d descShape1 = .ok () := by
  have happ := (verify_characterization val0d descShape1).2.2.2.2
    { dtype := "float32", shape := [], strides := [] } (by decide) (by decide)
    (by decide) (by decide) (by decide)
  exact happ.mpr (by decide)

lemma pyVerify_not_ptr1 (v : PyValue) (desc : ArgInfo) (h : desc.pointer_level ≠ 1) :
    pyVerify v desc = .ok () := by
  unfold pyVerify
  rw [if_neg h]

lemma strictIntShape?_map_int (sh : List Int) :
    strictIntShape? (sh.map .int) = some sh := by
  induction sh with
  | nil => rfl
  | cons d sh ih =>
    unfold strictIntShape? at ih ⊢
    rw [List.map_cons, List.mapM_cons, ih]
    rfl

lemma intShapeAll?_map_int (sh : List Int) :
    intShapeAll? (sh.map .int) = some sh := by
  induction sh with
  | nil => rfl
  | cons d sh ih =>
    unfold intShapeAll? at ih ⊢
    rw [List.map_cons, List.mapM_cons, ih]
    rfl

lemma all_integer_like_map_int (sh : List Int) :
    (sh.map IntOrStr.int).all integer_like = true := by
  induction sh with
  | nil => rfl
  | cons d sh ih => simp [integer_like, pyIntOf, ih]

lemma strictIntShape?_of_not_const (shape : List IntOrStr)
    (h : shape.all integer_like = false) :
    strictIntShape? shape = none := by
  induction shape with
  | nil => simp at h
  | cons e rest ih =>
    unfold strictIntShape?
    rw [List.mapM_cons]
    cases e with
    | str t => rfl
    | int n =>
      simp only [List.all_cons, integer_like, pyIntOf, Option.isSome_some,
        Bool.true_and] at h
      have := ih h
      unfold strictIntShape? at this
      rw [this]
      rfl

lemma findIdxByName_self (args : List ArgInfo)
    (hnd : (args.map ArgInfo.name).Nodup) (a : ArgInfo) (ha : a ∈ args) :
    ∃ j, findIdxByName args a.name = some j ∧ args.get? j = some a := by
  induction args with
  | nil => simp at ha
  | cons b rest ih =>
    simp only [List.map_cons, List.nodup_cons] at hnd
    by_cases hb : b.name = a.name
    · have hab : a = b := by
        rcases List.mem_cons.mp ha with rfl | ha'
        · rfl
        · exact absurd (hb ▸ List.mem_map_of_mem ArgInfo.name ha') hnd.1
      refine ⟨0, ?_, by simp [hab]⟩
      unfold findIdxByName firstIdxWhere
      rw [if_pos (by simp [hb])]
    · rcases List.mem_cons.mp ha with rfl | ha'
      · exact absurd rfl hb
      · obtain ⟨j, hj, hget⟩ := ih hnd.2 ha'
        refine ⟨j + 1, ?_, by simpa using hget⟩
        unfold findIdxByName at hj ⊢
        unfold firstIdxWhere
        rw [if_neg (by simp [hb]), hj]
        rfl

lemma dimLookup_mem (m : DimMap) (n : String) (av : ArgValue)
    (h : dimLookup m n = some av) : ∃ e ∈ m, e.1 = n ∧ e.2 = av := by
  unfold dimLookup at h
  cases hfind : m.find? (fun e => e.1 = n) with
  | none => rw [hfind] at h; exact absurd h (by simp)
  | some e =>
    rw [hfind] at h
    simp only [Option.map_some', Option.some.injEq] at h
    have hm := List.mem_of_find?_eq_some hfind
    have hp := List.find?_some hfind
    simp only [decide_eq_true_eq] at hp
    exact ⟨e, hm, hp, h⟩

/-- C5 counterexample: for the padded affine descriptor (shape `(2,2)`,
affine map `(4,1)`, float32) value generation succeeds but verification of
the generated value against the same descriptor fails (the synthesized data
is C-contiguous with strides `(8,4)` while the descriptor requires
`(16,4)`), refuting the claim that the round trip always succeeds. -/
theorem padded_affine_roundtrip_fails :
    argsPadded.length = 1
    ∧ exceptOk (generate_arg_values argsPadded g0) = true
    ∧ verifyAllOk ((generate_arg_values argsPadded g0).toOption.getD []) = false := by
  decide

lemma buildShapeGo_cons (dimArgs : List (String × ArgInfo)) (g : Nat → Nat)
    (d : IntOrStr) (rest : List IntOrStr) (dims : DimMap) (k : Nat) :
    buildShapeGo dimArgs g (d :: rest) dims k
      = (if integer_like d then
          match pyIntOf d with
          | some n =>
            (buildShapeGo dimArgs g rest dims k).map
              (fun r => (n :: r.1, r.2.1, r.2.2))
          | none => .error "unreachable: integer_like entry without int()"
        else
          match d with
          | .int _ => .error "AssertionError"
          | .str t =>
            match dimArgs.find? (fun e => e.1 = t) with
            | none => .error "AssertionError"
            | some da =>
              match dimLookup dims t with
              | none =>
                let n := pickDim g k
                match mkArgValue da.2 (some (.pyInt n)) with
                | .error e => .error e
                | .ok av =>
                  (buildShapeGo dimArgs g rest ((t, av) :: dims) (k + 1)).map
                    (fun r => (n :: r.1, r.2.1, r.2.2))
              | some av =>
                match av.value with
                | .scalar dt n =>
                  if isIntDtype dt then
                    (buildShapeGo dimArgs g rest dims k).map
                      (fun r => (n :: r.1, r.2.1, r.2.2))
                  else
                    .error "TypeError: scalar object is not subscriptable"
                | _ => .error "TypeError: unexpected stored dimension value") := rfl

lemma buildShapeGo_inv (args : List ArgInfo) (dimArgs : List (String × ArgInfo))
    (g : Nat → Nat) :
    ∀ (entries : List IntOrStr) (dims : DimMap) (k : Nat)
      (sh : List Int) (dims' : DimMap) (k' : Nat),
      buildShapeGo dimArgs g entries dims k = .ok (sh, dims', k') →
      InvDims args dims →
      (∀ t, IntOrStr.str t ∈ entries → ∀ j, findIdxByName args t = some j →
        ∀ b, args.get? j = some b → b.pointer_level = 0) →
      InvDims args dims' := by
  intro entries
  induction entries with
  | nil =>
    intro dims k sh dims' k' h hInv hP
    simp only [buildShapeGo, Except.ok.injEq, Prod.mk.injEq] at h
    obtain ⟨-, rfl, -⟩ := h
    exact hInv
  | cons d rest ih =>
    intro dims k sh dims' k' h hInv hP
    have hPrest : ∀ t, IntOrStr.str t ∈ rest → ∀ j, findIdxByName args t = some j →
        ∀ b, args.get? j = some b → b.pointer_level = 0 :=
      fun t ht => hP t (List.mem_cons_of_mem d ht)
    rw [buildShapeGo_cons] at h
    by_cases hint : integer_like d
    · rw [if_pos hint] at h
      cases hpy : pyIntOf d with
      | none => rw [hpy] at h; exact absurd h (by simp)
      | some n =>
        rw [hpy] at h
        dsimp only at h
        cases hrec : buildShapeGo dimArgs g rest dims k with
        | error e => rw [hrec] at h; exact absurd h (by simp [Except.map])
        | ok r =>
          rw [hrec] at h
          obtain ⟨sh0, dims0, k0⟩ := r
          simp only [Except.map, Except.ok.injEq, Prod.mk.injEq] at h
          obtain ⟨-, rfl, -⟩ := h
          exact ih dims k sh0 dims0 k0 hrec hInv hPrest
    · rw [if_neg hint] at h
      cases d with
      | int m => exact absurd h (by simp)
      | str t =>
        dsimp only at h
        cases hda : dimArgs.find? (fun e => e.1 = t) with
        | none => rw [hda] at h; exact absurd h (by simp)
        | some da =>
          rw [hda] at h
          dsimp only at h
          cases hlk : dimLookup dims t with
          | none =>
            rw [hlk] at h
            dsimp only at h
            cases hmk : mkArgValue da.2 (some (.pyInt (pickDim g k))) with
            | error e => rw [hmk] at h; exact absurd h (by simp)
            | ok av =>
              rw [hmk] at h
              dsimp only at h
              cases hrec : buildShapeGo dimArgs g rest ((t, av) :: dims) (k + 1) with
              | error e => rw [hrec] at h; exact absurd h (by simp [Except.map])
              | ok r =>
                rw [hrec] at h
                obtain ⟨sh0, dims0, k0⟩ := r
                simp only [Except.map, Except.ok.injEq, Prod.mk.injEq] at h
                obtain ⟨-, rfl, -⟩ := h
                refine ih ((t, av) :: dims) (k + 1) sh0 dims0 k0 hrec ?_ hPrest
                intro e he
                rcases List.mem_cons.mp he with rfl | he'
                · exact hP t (List.mem_cons_self _ _)
                · exact hInv e he'
          | some av =>
            rw [hlk] at h
            dsimp only at h
            cases hval : av.value with
            | scalar dt n =>
              rw [hval] at h
              dsimp only at h
              by_cases hdt : isIntDtype dt
              · rw [if_pos hdt] at h
                cases hrec : buildShapeGo dimArgs g rest dims k with
                | error e => rw [hrec] at h; exact absurd h (by simp [Except.map])
                | ok r =>
                  rw [hrec] at h
                  obtain ⟨sh0, dims0, k0⟩ := r
                  simp only [Except.map, Except.ok.injEq, Prod.mk.injEq] at h
                  obtain ⟨-, rfl, -⟩ := h
                  exact ih dims k sh0 dims0 k0 hrec hInv hPrest
              · rw [if_neg hdt] at h
                exact absurd h (by simp)
            | ndarray a => rw [hval] at h; exact absurd h (by simp)
            | ptrHandle => rw [hval] at h; exact absurd h (by simp)
            | pyInt n => rw [hval] at h; exact absurd h (by simp)

lemma effNumpyStrides_of_shape (a : ArgInfo) (sh : List Int)
    (hds : intShapeAll? a.shape = some sh) :
    effNumpyStrides a
      = (match a.numpy_strides with
         | some st => st
         | none => (sh.drop 1 ++ [1]).map (fun x => x * (a.element_num_bytes : Int))) := by
  unfold effNumpyStrides
  rw [hds]
  cases a.numpy_strides <;> rfl

lemma specializeConst_ok (a a' : ArgInfo) (h : specializeConst a = .ok a') :
    ∃ n sh, pyIntOf a.total_element_count = some n
      ∧ intShapeAll? a.shape = some sh
      ∧ a'.shape = sh.map IntOrStr.int
      ∧ a'.total_element_count = IntOrStr.int n
      ∧ a'.numpy_strides = some (effNumpyStrides a)
      ∧ a'.numpy_dtype = a.numpy_dtype
      ∧ a'.element_num_bytes = a.element_num_bytes
      ∧ a'.pointer_level = a.pointer_level
      ∧ a'.usage = a.usage := by
  unfold specializeConst at h
  cases hn : pyIntOf a.total_element_count with
  | none => rw [hn] at h; exact absurd h (by simp)
  | some n =>
    rw [hn] at h
    dsimp only at h
    cases hsh : intShapeAll? a.shape with
    | none => rw [hsh] at h; exact absurd h (by simp)
    | some sh =>
      rw [hsh] at h
      dsimp only at h
      simp only [Except.ok.injEq] at h
      subst h
      refine ⟨n, sh, rfl, rfl, rfl, rfl, ?_, rfl, rfl, rfl, rfl⟩
      rw [effNumpyStrides_of_shape a sh hsh]

lemma gen_random_data_ok (dtype : String) (sh : List Int) (arr : NDArray)
    (h : gen_random_data dtype sh = .ok arr) :
    arr = { dtype := dtype, shape := sh, strides := cStrides (itemsizeOf dtype) sh } := by
  unfold gen_random_data at h
  by_cases hn : sh.all (fun d => 0 ≤ d)
  · rw [if_pos hn] at h
    simp only [Except.ok.injEq] at h
    exact h.symm
  · rw [if_neg hn] at h
    exact absurd h (by simp)

lemma mkArgValue_ndarray_ok (info : ArgInfo) (arr : NDArray) (av : ArgValue)
    (h : mkArgValue info (some (.ndarray arr)) = .ok av) :
    av.value = .ndarray arr ∧ av.arg_info = info := by
  unfold mkArgValue at h
  by_cases h2 : info.pointer_level > 2
  · rw [if_pos h2] at h
    exact absurd h (by simp)
  · rw [if_neg h2] at h
    dsimp only at h
    simp only [Except.ok.injEq] at h
    subst h
    exact ⟨rfl, rfl⟩

lemma mkArgValue_none_ok (info : ArgInfo) (av : ArgValue)
    (h : mkArgValue info none = .ok av) :
    ∃ pv, allocateValue info = .ok pv ∧ av.value = pv := by
  unfold mkArgValue at h
  by_cases h2 : info.pointer_level > 2
  · rw [if_pos h2] at h
    exact absurd h (by simp)
  · rw [if_neg h2] at h
    dsimp only at h
    by_cases h0 : info.pointer_level = 0
    · rw [if_pos h0] at h
      exact absurd h (by simp)
    · rw [if_neg h0] at h
      cases halloc : allocateValue info with
      | error e => rw [halloc] at h; exact absurd h (by simp [Except.map])
      | ok pv =>
        rw [halloc] at h
        simp only [Except.map, Except.ok.injEq] at h
        subst h
        exact ⟨pv, rfl, rfl⟩

lemma allocateValue_ok (info : ArgInfo) (pv : PyValue) (h : allocateValue info = .ok pv) :
    (info.pointer_level = 1
      ∧ ∃ n sh ns, info.total_element_count = .int n
        ∧ strictIntShape? info.shape = some sh ∧ info.numpy_strides = some ns
        ∧ pv = .ndarray { dtype := info.numpy_dtype, shape := sh, strides := ns })
    ∨ (info.pointer_level = 2 ∧ pv = .ptrHandle) := by
  unfold allocateValue at h
  by_cases h1 : info.pointer_level = 1
  · rw [if_pos h1] at h
    left
    refine ⟨h1, ?_⟩
    cases hc : info.total_element_count with
    | str s => rw [hc] at h; exact absurd h (by simp)
    | int n =>
      rw [hc] at h
      dsimp only at h
      by_cases hn : (0 : Int) ≤ n
      · rw [if_pos hn] at h
        cases hsh : strictIntShape? info.shape with
        | none =>
          rw [hsh] at h
          cases info.numpy_strides <;> exact absurd h (by simp)
        | some sh =>
          cases hns : info.numpy_strides with
          | none => rw [hsh, hns] at h; exact absurd h (by simp)
          | some ns =>
            rw [hsh, hns] at h
            dsimp only at h
            by_cases hpos : sh.all (fun d => 0 ≤ d)
            · rw [if_pos hpos] at h
              simp only [Except.ok.injEq] at h
              exact ⟨n, sh, ns, rfl, rfl, rfl, h.symm⟩
            · rw [if_neg hpos] at h
              exact absurd h (by simp)
      · rw [if_neg hn] at h
        exact absurd h (by simp)
  · rw [if_neg h1] at h
    by_cases hp2 : info.pointer_level = 2
    · rw [if_pos hp2] at h
      simp only [Except.ok.injEq] at h
      exact Or.inr ⟨hp2, h.symm⟩
    · rw [if_neg hp2] at h
      exact absurd h (by simp)

lemma verify_fresh_nonconst (a : ArgInfo) (arr : NDArray)
    (hdt : arr.dtype = a.numpy_dtype) (hconst : a.is_constant_shaped = false) :
    pyVerify (.ndarray arr) a = .ok () := by
  by_cases h1 : a.pointer_level = 1
  · unfold pyVerify
    rw [if_pos h1]
    dsimp only
    rw [if_neg (not_not_intro hdt.symm), if_neg (by simp [hconst])]
  · exact pyVerify_not_ptr1 _ _ h1

lemma pyVerify_const_ok (desc : ArgInfo) (arr : NDArray)
    (hdt : arr.dtype = desc.numpy_dtype)
    (hconst : desc.is_constant_shaped = true)
    (hsh : intShapeAll? desc.shape = some arr.shape)
    (hstrides : effNumpyStrides desc = arr.strides)
    (hcount : arr.size ≤ 1 → pyIntOf desc.total_element_count = some arr.size) :
    pyVerify (.ndarray arr) desc = .ok () := by
  by_cases h1 : desc.pointer_level = 1
  · unfold pyVerify
    rw [if_pos h1]
    dsimp only
    rw [if_neg (not_not_intro hdt.symm), if_pos hconst]
    by_cases hsz : arr.size > 1
    · rw [if_pos hsz, hsh]
      dsimp only
      rw [if_neg (not_not_intro rfl)]
      have heff := effNumpyStrides_of_shape desc arr.shape hsh
      rw [if_neg (not_not_intro (heff.symm.trans hstrides))]
    · rw [if_neg hsz, hcount (by omega)]
      dsimp only
      rw [if_neg (not_not_intro rfl)]
  · exact pyVerify_not_ptr1 _ _ h1

lemma effNumpyStrides_some (a : ArgInfo) (st : List Int)
    (h : a.numpy_strides = some st) : effNumpyStrides a = st := by
  unfold effNumpyStrides
  rw [h]

lemma is_constant_false_all (a : ArgInfo) (h : ¬ a.is_constant_shaped = true) :
    a.shape.all integer_like = false := by
  unfold ArgInfo.is_constant_shaped at h
  cases hcc : a.shape.all integer_like
  · rfl
  · exact absurd hcc h

lemma genOne_verify (args : List ArgInfo) (g : Nat → Nat)
    (hnd : (args.map ArgInfo.name).Nodup)
    (hcount : ∀ a ∈ args, a.is_constant_shaped = true →
      pyIntOf a.total_element_count = some (((intShapeAll? a.shape).getD []).prod))
    (hstr : ∀ a ∈ args, a.is_constant_shaped = true → a.usage ≠ .Output →
      effNumpyStrides a = cStrides a.element_num_bytes ((intShapeAll? a.shape).getD []))
    (hitem : ∀ a ∈ args, itemsizeOf a.numpy_dtype = a.element_num_bytes)
    (hdims : ∀ a ∈ args, a.is_constant_shaped = false → a.usage ≠ .Output →
      ∀ e ∈ a.shape, dimPointerLevelOk args e = true)
    (a : ArgInfo) (ha : a ∈ args) (dims : DimMap) (k : Nat)
    (hInv : InvDims args dims)
    (pr : ArgInfo × ArgValue) (dims' : DimMap) (k' : Nat)
    (h : genOne args g a dims k = .ok (pr, dims', k')) :
    pyVerify pr.2.value pr.1 = .ok () ∧ InvDims args dims' := by
  have hP : a.is_constant_shaped = false → a.usage ≠ .Output →
      ∀ t, IntOrStr.str t ∈ a.shape → ∀ j, findIdxByName args t = some j →
        ∀ b, args.get? j = some b → b.pointer_level = 0 := by
    intro hc hu t ht j hj b hb
    have hv := hdims a ha hc hu (IntOrStr.str t) ht
    unfold dimPointerLevelOk at hv
    dsimp only at hv
    rw [hj] at hv
    dsimp only at hv
    rw [hb] at hv
    dsimp only at hv
    exact of_decide_eq_true hv
  unfold genOne at h
  by_cases hbr : a.usage ≠ .Output ∧ ¬ a.is_constant_shaped = true
  · rw [if_pos hbr] at h
    cases hidx : get_dimension_arg_indices a args with
    | error e => rw [hidx] at h; exact absurd h (by simp)
    | ok idxs =>
      rw [hidx] at h
      dsimp only at h
      have hconstf : a.is_constant_shaped = false := is_constant_false_all a hbr.2
      have hbuild : ∀ sh dimsB kB,
          (if a.shape = [.str ""] then Except.ok ([1], dims, k)
           else buildShapeGo
             (idxs.map (fun i => ((args.getD i default).name, args.getD i default)))
             g a.shape dims k) = .ok (sh, dimsB, kB) →
          InvDims args dimsB := by
        intro sh dimsB kB hb
        by_cases hsp : a.shape = [.str ""]
        · rw [if_pos hsp] at hb
          simp only [Except.ok.injEq, Prod.mk.injEq] at hb
          obtain ⟨-, rfl, -⟩ := hb
          exact hInv
        · rw [if_neg hsp] at hb
          exact buildShapeGo_inv args _ g a.shape dims k sh dimsB kB hb hInv
            (fun t ht => hP hconstf hbr.1 t ht)
      cases hsh : (if a.shape = [.str ""] then Except.ok ([1], dims, k)
           else buildShapeGo
             (idxs.map (fun i => ((args.getD i default).name, args.getD i default)))
             g a.shape dims k) with
      | error e => rw [hsh] at h; exact absurd h (by simp)
      | ok r =>
        obtain ⟨sh, dimsB, kB⟩ := r
        rw [hsh] at h
        dsimp only at h
        cases hgen : gen_random_data a.numpy_dtype sh with
        | error e => rw [hgen] at h; exact absurd h (by simp)
        | ok arr =>
          rw [hgen] at h
          dsimp only at h
          cases hmk : mkArgValue a (some (.ndarray arr)) with
          | error e => rw [hmk] at h; exact absurd h (by simp)
          | ok av =>
            rw [hmk] at h
            simp only [Except.ok.injEq, Prod.mk.injEq] at h
            obtain ⟨rfl, rfl, -⟩ := h
            obtain ⟨hval, -⟩ := mkArgValue_ndarray_ok a arr av hmk
            have harr := gen_random_data_ok _ _ _ hgen
            refine ⟨?_, hbuild _ _ _ hsh⟩
            rw [hval]
            exact verify_fresh_nonconst a arr (by rw [harr]) hconstf
  · rw [if_neg hbr] at h
    cases hlk : dimLookup dims a.name with
    | some av =>
      rw [hlk] at h
      simp only [Except.ok.injEq, Prod.mk.injEq] at h
      obtain ⟨rfl, rfl, -⟩ := h
      obtain ⟨e, hem, hname, hav⟩ := dimLookup_mem dims a.name av hlk
      obtain ⟨j, hj, hget⟩ := findIdxByName_self args hnd a ha
      have hlvl : a.pointer_level = 0 := hInv e hem j (hname ▸ hj) a hget
      have hne : a.pointer_level ≠ 1 := by rw [hlvl]; decide
      exact ⟨pyVerify_not_ptr1 _ _ hne, hInv⟩
    | none =>
      rw [hlk] at h
      dsimp only at h
      by_cases hconst : a.is_constant_shaped = true
      · rw [if_pos hconst] at h
        cases hspec : specializeConst a with
        | error e => rw [hspec] at h; exact absurd h (by simp)
        | ok a' =>
          rw [hspec] at h
          dsimp only at h
          obtain ⟨n, sh, hn, hshape, ha'sh, ha'cnt, ha'str, ha'dt, ha'el, ha'pl, ha'us⟩ :=
            specializeConst_ok a a' hspec
          have ha'const : a'.is_constant_shaped = true := by
            unfold ArgInfo.is_constant_shaped
            rw [ha'sh]
            exact all_integer_like_map_int sh
          have ha'ishape : intShapeAll? a'.shape = some sh := by
            rw [ha'sh]
            exact intShapeAll?_map_int sh
          have hnprod : n = sh.prod := by
            have := hcount a ha hconst
            rw [hn] at this
            rw [hshape] at this
            simpa using this
          have hcnt' : pyIntOf a'.total_element_count = some sh.prod := by
            rw [ha'cnt, hnprod]
            rfl
          by_cases hu : a.usage ≠ .Output
          · rw [if_pos hu] at h
            cases hsh2 : strictIntShape? a'.shape with
            | none =>
              rw [hsh2] at h
              exact absurd h (by simp)
            | some sh2 =>
              rw [hsh2] at h
              dsimp only at h
              have hsh2eq : sh2 = sh := by
                rw [ha'sh, strictIntShape?_map_int] at hsh2
                injection hsh2 with hh
                exact hh.symm
              subst hsh2eq
              cases hgen : gen_random_data a'.numpy_dtype sh2 with
              | error e => rw [hgen] at h; exact absurd h (by simp)
              | ok arr =>
                rw [hgen] at h
                dsimp only at h
                cases hmk : mkArgValue a' (some (.ndarray arr)) with
                | error e => rw [hmk] at h; exact absurd h (by simp)
                | ok av =>
                  rw [hmk] at h
                  simp only [Except.ok.injEq, Prod.mk.injEq] at h
                  obtain ⟨rfl, rfl, -⟩ := h
                  obtain ⟨hval, -⟩ := mkArgValue_ndarray_ok a' arr av hmk
                  have harr := gen_random_data_ok _ _ _ hgen
                  refine ⟨?_, hInv⟩
                  rw [hval]
                  refine pyVerify_const_ok a' arr (by rw [harr]) ha'const ?_ ?_ ?_
                  · rw [ha'ishape, harr]
                  · have heffa' : effNumpyStrides a' = effNumpyStrides a :=
                      effNumpyStrides_some a' _ ha'str
                    rw [heffa', harr]
                    dsimp only
                    have h3 := hstr a ha hconst hu
                    rw [hshape] at h3
                    simp only [Option.getD_some] at h3
                    rw [h3, ha'dt, hitem a ha]
                  · intro hsz
                    rw [hcnt', harr]
                    dsimp only [NDArray.size]
          · rw [if_neg hu] at h
            cases hmk : mkArgValue a' none with
            | error e => rw [hmk] at h; exact absurd h (by simp)
            | ok av =>
              rw [hmk] at h
              simp only [Except.ok.injEq, Prod.mk.injEq] at h
              obtain ⟨rfl, rfl, -⟩ := h
              obtain ⟨pv, halloc, hval⟩ := mkArgValue_none_ok a' av hmk
              refine ⟨?_, hInv⟩
              rw [hval]
              rcases allocateValue_ok a' pv halloc with
                ⟨hp1, n2, sh2, ns2, hc2, hsh2, hns2, hpv⟩ | ⟨hp2, hpv⟩
              · subst hpv
                have hsh2eq : sh2 = sh := by
                  rw [ha'sh, strictIntShape?_map_int] at hsh2
                  injection hsh2 with hh
                  exact hh.symm
                subst hsh2eq
                refine pyVerify_const_ok a' _ rfl ha'const ?_ ?_ ?_
                · rw [ha'ishape]
                · exact effNumpyStrides_some a' _ hns2
                · intro hsz
                  rw [hcnt']
                  dsimp only [NDArray.size]
              · subst hpv
                have hne : a'.pointer_level ≠ 1 := by rw [hp2]; decide
                exact pyVerify_not_ptr1 _ _ hne
      · rw [if_neg hconst] at h
        dsimp only at h
        have hu : a.usage = .Output := by
          by_cases hu2 : a.usage = .Output
          · exact hu2
          · exact absurd ⟨hu2, by simp [hconst]⟩ hbr
        rw [if_neg (by simp [hu] : ¬ a.usage ≠ .Output)] at h
        cases hmk : mkArgValue a none with
        | error e => rw [hmk] at h; exact absurd h (by simp)
        | ok av =>
          rw [hmk] at h
          simp only [Except.ok.injEq, Prod.mk.injEq] at h
          obtain ⟨rfl, rfl, -⟩ := h
          obtain ⟨pv, halloc, hval⟩ := mkArgValue_none_ok a av hmk
          refine ⟨?_, hInv⟩
          rw [hval]
          rcases allocateValue_ok a pv halloc with
            ⟨hp1, n2, sh2, ns2, hc2, hsh2, hns2, hpv⟩ | ⟨hp2, hpv⟩
          · exfalso
            rw [strictIntShape?_of_not_const a.shape (is_constant_false_all a hconst)] at hsh2
            exact absurd hsh2 (by simp)
          · subst hpv
            have hne : a.pointer_level ≠ 1 := by rw [hp2]; decide
            exact pyVerify_not_ptr1 _ _ hne

lemma wireOutputDims_cons (allArgs : List ArgInfo) (pr : ArgInfo × ArgValue)
    (rest : List (ArgInfo × ArgValue)) :
    wireOutputDims allArgs (pr :: rest)
      = (match (if pr.2.arg_info.usage = .Output ∧ ¬ pr.2.arg_info.is_constant_shaped then
            (get_dimension_arg_indices pr.2.arg_info allArgs).map
              (fun idxs => (pr.1, { pr.2 with dim_values := some idxs }))
          else .ok pr) with
        | .error e => .error e
        | .ok pr2 =>
          match wireOutputDims allArgs rest with
          | .error e => .error e
          | .ok rest2 => .ok (pr2 :: rest2)) := rfl

lemma wireOutputDims_preserves (allArgs : List ArgInfo) :
    ∀ (prs prs' : List (ArgInfo × ArgValue)),
      wireOutputDims allArgs prs = .ok prs' →
      ∀ pr' ∈ prs', ∃ pr ∈ prs, pr'.1 = pr.1 ∧ pr'.2.value = pr.2.value := by
  intro prs
  induction prs with
  | nil =>
    intro prs' h pr' hpr'
    simp only [wireOutputDims, Except.ok.injEq] at h
    subst h
    simp at hpr'
  | cons p rest ih =>
    intro prs' h pr' hpr'
    rw [wireOutputDims_cons] at h
    have hstep : ∀ p2, (if p.2.arg_info.usage = .Output ∧ ¬ p.2.arg_info.is_constant_shaped then
            (get_dimension_arg_indices p.2.arg_info allArgs).map
              (fun idxs => (p.1, { p.2 with dim_values := some idxs }))
          else .ok p) = .ok p2 → p2.1 = p.1 ∧ p2.2.value = p.2.value := by
      intro p2 hp2
      by_cases hc : p.2.arg_info.usage = .Output ∧ ¬ p.2.arg_info.is_constant_shaped
      · rw [if_pos hc] at hp2
        cases hidx : get_dimension_arg_indices p.2.arg_info allArgs with
        | error e => rw [hidx] at hp2; exact absurd hp2 (by simp [Except.map])
        | ok idxs =>
          rw [hidx] at hp2
          simp only [Except.map, Except.ok.injEq] at hp2
          subst hp2
          exact ⟨rfl, rfl⟩
      · rw [if_neg hc] at hp2
        simp only [Except.ok.injEq] at hp2
        subst hp2
        exact ⟨rfl, rfl⟩
    cases hif : (if p.2.arg_info.usage = .Output ∧ ¬ p.2.arg_info.is_constant_shaped then
            (get_dimension_arg_indices p.2.arg_info allArgs).map
              (fun idxs => (p.1, { p.2 with dim_values := some idxs }))
          else .ok p) with
    | error e => rw [hif] at h; exact absurd h (by simp)
    | ok p2 =>
      rw [hif] at h
      dsimp only at h
      cases hrest : wireOutputDims allArgs rest with
      | error e => rw [hrest] at h; exact absurd h (by simp)
      | ok rest2 =>
        rw [hrest] at h
        simp only [Except.ok.injEq] at h
        subst h
        rcases List.mem_cons.mp hpr' with rfl | hpr''
        · obtain ⟨h1, h2⟩ := hstep pr' hif
          exact ⟨p, List.mem_cons_self _ _, h1, h2⟩
        · obtain ⟨pr, hm, h1, h2⟩ := ih rest2 hrest pr' hpr''
          exact ⟨pr, List.mem_cons_of_mem p hm, h1, h2⟩

lemma genAll_verify (args : List ArgInfo) (g : Nat → Nat)
    (hGood : goodRoundTripArgs args) :
    ∀ (l : List ArgInfo), (∀ a ∈ l, a ∈ args) →
    ∀ (dims : DimMap) (k : Nat), InvDims args dims →
    ∀ (prs : List (ArgInfo × ArgValue)) (dims' : DimMap) (k' : Nat),
      genAll args g l dims k = .ok (prs, dims', k') →
      (∀ pr ∈ prs, pyVerify pr.2.value pr.1 = .ok ()) ∧ InvDims args dims' := by
  obtain ⟨hnd, hcount, hstr, hitem, hdims⟩ := hGood
  intro l
  induction l with
  | nil =>
    intro hsub dims k hInv prs dims' k' h
    simp only [genAll, Except.ok.injEq, Prod.mk.injEq] at h
    obtain ⟨rfl, rfl, -⟩ := h
    exact ⟨fun pr hpr => absurd hpr (List.not_mem_nil pr), hInv⟩
  | cons b rest ih =>
    intro hsub dims k hInv prs dims' k' h
    rw [genAll_cons] at h
    cases hone : genOne args g b dims k with
    | error e => rw [hone] at h; exact absurd h (by simp)
    | ok out =>
      obtain ⟨pr0, dims0, k0⟩ := out
      rw [hone] at h
      dsimp only at h
      obtain ⟨hver0, hInv0⟩ := genOne_verify args g hnd hcount hstr hitem hdims b
        (hsub b (List.mem_cons_self _ _)) dims k hInv pr0 dims0 k0 hone
      cases hrest : genAll args g rest dims0 k0 with
      | error e => rw [hrest] at h; exact absurd h (by simp)
      | ok r =>
        obtain ⟨prs1, dims1, k1⟩ := r
        rw [hrest] at h
        simp only [Except.ok.injEq, Prod.mk.injEq] at h
        obtain ⟨rfl, rfl, -⟩ := h
        obtain ⟨hver1, hInv1⟩ := ih (fun a ha => hsub a (List.mem_cons_of_mem b ha))
          dims0 k0 hInv0 prs1 dims1 k1 hrest
        refine ⟨?_, hInv1⟩
        intro pr hpr
        rcases List.mem_cons.mp hpr with rfl | hpr'
        · exact hver0
        · exact hver1 pr hpr'

/-- C5 amended: materializing argument values via `generate_arg_values` and
verifying each against its (specialized) descriptor succeeds whenever every
constant-shaped descriptor describes the standard contiguous row-major
layout of its shape (byte strides equal to the C-contiguous strides of the
generated data, total element count equal to the shape product) and every
dimension parameter referenced by an input runtime array is a by-value
scalar; for descriptors whose affine map is padded or non-contiguous the
round trip fails (see the counterexample). -/
theorem roundtrip_verify (args : List ArgInfo) (g : Nat → Nat)
    (hGood : goodRoundTripArgs args) (prs : List (ArgInfo × ArgValue))
    (h : generate_arg_values args g = .ok prs) :
    ∀ pr ∈ prs, pyVerify pr.2.value pr.1 = .ok () := by
  unfold generate_arg_values at h
  cases hall : genAll args g args [] 0 with
  | error e => rw [hall] at h; exact absurd h (by simp)
  | ok r =>
    obtain ⟨prs0, dimsF, kF⟩ := r
    rw [hall] at h
    dsimp only at h
    have hver := (genAll_verify args g hGood args (fun a ha => ha) [] 0
      (fun e he => absurd he (List.not_mem_nil e)) prs0 dimsF kF hall).1
    intro pr hpr
    obtain ⟨pr0, hpr0, heq1, heq2⟩ := wireOutputDims_preserves args prs0 prs h pr hpr
    rw [heq1, heq2]
    exact hver pr0 hpr0

/-- C5 witness: a contiguous affine array, a by-value `int64_t` dimension
element and an input runtime array sized by it — generation succeeds and
every generated value verifies against its descriptor. -/
theorem roundtrip_verify_witness :
    generate_arg_values argsRoundTrip g0
      = .ok ((generate_arg_values argsRoundTrip g0).toOption.getD [])
    ∧ verifyAllOk ((generate_arg_values argsRoundTrip g0).toOption.getD []) = true := by
  have hgen : generate_arg_values argsRoundTrip g0
      = .ok ((generate_arg_values argsRoundTrip g0).toOption.getD []) := by decide
  have happ := roundtrip_verify argsRoundTrip g0
    (by unfold goodRoundTripArgs; refine ⟨?_, ?_, ?_, ?_, ?_⟩ <;> decide) _ hgen
  refine ⟨hgen, ?_⟩
  rw [verifyAllOk, List.all_eq_true]
  intro pr hpr
  simpa using happ pr hpr
